import Mathlib

/-!
Shallow embedding of the arbitrage-detection core of the solana-streamer
repository, together with theorems settling the frozen claims about it.

Conventions of the embedding:
* Rust `u16`/`u64`/`u128` values are `Nat`; a `% 2^w` (or a wrapping-sub
  helper) appears exactly where Rust integer arithmetic can wrap, and
  Rust's saturating float-to-integer `as` casts are the `fCastNat` helper.
* Rust `f64` arithmetic is modelled by exact rationals `ℚ`; where Rust
  division by zero would produce an infinity or NaN whose downstream
  behaviour matters, the embedding reproduces that behaviour by an
  explicit case split (commented at each site).
* `HashMap` is modelled as an association list with replace-or-append
  insertion; `Vec` is `List`.
* Functions reading the system clock (`current_timestamp()`,
  `chrono::Utc::now()`, `SystemTime::elapsed`) take the current time as
  an explicit `now` argument.
* `Pubkey` (a 32-byte key) is a list of byte values; its `Ord` instance
  (byte-lexicographic) and its base58 `to_string` are both embedded,
  because the source normalizes token pairs by either order depending on
  the module.
-/

/-- A 32-byte on-chain key, as its list of byte values. -/
abbrev Pubkey := List Nat

/-- Lexicographic strict order on byte/character sequences: this is both
Rust's `Ord` on `[u8; 32]` (equal lengths) and Rust's `Ord` on `String`
(ASCII content, prefix-smaller rule). -/
def strLt : List Nat → List Nat → Bool
  | _, [] => false
  | [], _ :: _ => true
  | a :: as, b :: bs => if a < b then true else if b < a then false else strLt as bs

/-- The base58 alphabet used by `Pubkey::to_string`, as ASCII codes. -/
def b58Alphabet : List Nat :=
  ("123456789ABCDEFGHJKLMNPQRSTUVWXYZabcdefghijkmnopqrstuvwxyz".toList).map Char.toNat

/-- Base58 digit expansion (most-significant first) of a natural number;
`0` encodes to the empty digit string. -/
def natToB58 (n : Nat) : List Nat :=
  if h : n = 0 then []
  else natToB58 (n / 58) ++ [n % 58]
termination_by n
decreasing_by exact Nat.div_lt_self (Nat.pos_of_ne_zero h) (by norm_num)

/-- Number of leading zero bytes of a key (each becomes a leading '1'). -/
def countLeadingZeroBytes : List Nat → Nat
  | [] => 0
  | b :: bs => if b = 0 then countLeadingZeroBytes bs + 1 else 0

/-- Big-endian value of a byte string. -/
def bytesToNat (bs : List Nat) : Nat :=
  bs.foldl (fun acc b => acc * 256 + b) 0

/-- Source `Pubkey::to_string()`: base58 encoding, as the list of ASCII codes of
the resulting string. -/
def pubkeyToBase58 (pk : Pubkey) : List Nat :=
  (List.replicate (countLeadingZeroBytes pk) 0 ++ natToB58 (bytesToNat pk)).map
    (fun i => b58Alphabet.getD i 0)

/-- Rust `a.to_string() < b.to_string()` on pubkeys. -/
def pubkeyStrLt (a b : Pubkey) : Bool :=
  strLt (pubkeyToBase58 a) (pubkeyToBase58 b)

/-- Rust `a < b` on pubkeys (derived `Ord` on the byte array). -/
def pubkeyByteLt (a b : Pubkey) : Bool :=
  strLt a b

/-- Wrapping subtraction `a - b` on `u64` (both arguments below `2^64`). -/
def wsub64 (a b : Nat) : Nat :=
  ((a + 2 ^ 64) - b) % 2 ^ 64

/-- Rust saturating float-to-unsigned-integer cast (`as u16`, `as u64`):
truncate toward zero, clamp into `[0, bound]`. -/
def fCastNat (bound : Nat) (q : ℚ) : Nat :=
  min (⌊q⌋.toNat) bound

/-- Association-list model of `HashMap::insert`: replace the value if the
key is present, otherwise append the binding. -/
def alistInsert {κ ν : Type} [DecidableEq κ] (l : List (κ × ν)) (k : κ) (v : ν) :
    List (κ × ν) :=
  if l.any (fun p => p.1 = k) then
    l.map (fun p => if p.1 = k then (k, v) else p)
  else
    l ++ [(k, v)]

/-- Association-list model of `HashMap::get`. -/
def alistLookup {κ ν : Type} [DecidableEq κ] (l : List (κ × ν)) (k : κ) : Option ν :=
  (l.find? (fun p => p.1 = k)).map (fun p => p.2)

/-! ## `src/streaming/liquidity_monitor.rs` -/

/-- The DEX protocol variants of `liquidity_monitor.rs`. -/
inductive DexType
  | RaydiumAmmV4
  | RaydiumClmm
  | RaydiumCpmm
  | OrcaWhirlpool
  | MeteoraDlmm
deriving DecidableEq, Repr

/-- Source `DexType::typical_fee_bps`. -/
def DexType.typical_fee_bps : DexType → Nat
  | .RaydiumAmmV4 => 25
  | .RaydiumClmm => 25
  | .RaydiumCpmm => 25
  | .OrcaWhirlpool => 30
  | .MeteoraDlmm => 20

/-- Source `PoolState` of `liquidity_monitor.rs`. -/
structure PoolState where
  pool_address : Pubkey
  dex_type : DexType
  token_a : Pubkey
  token_b : Pubkey
  reserve_a : Nat
  reserve_b : Nat
  liquidity : Nat
  sqrt_price_x64 : Option Nat
  tick_current : Option Int
  active_bin_id : Option Int
  bin_step : Option Nat
  total_fee_bps : Nat
  last_updated : Nat
  last_trade_timestamp : Option Nat
  volume_24h : Option ℚ
deriving DecidableEq, Repr

/-- Source `PoolState::calculate_cpmm_impact`.  The `u128` intermediates cannot
overflow for `u64` inputs, so they carry no reduction; the final
`as u64` cast of the output is a wrap, written `% 2^64`.  For
`input_amount = 0` the Rust execution price is `0.0/0.0 = NaN`, which
propagates to `(NaN) as u16 = 0`; that branch is explicit here. -/
def PoolState.calculate_cpmm_impact (p : PoolState)
    (input_amount reserve_in reserve_out : Nat) : Nat × Nat :=
  if reserve_in = 0 ∨ reserve_out = 0 then
    (0, 10000)
  else
    let fee_multiplier := 10000 - p.total_fee_bps
    let input_with_fee := input_amount * fee_multiplier / 10000
    let output_amount := (reserve_out * input_with_fee / (reserve_in + input_with_fee)) % 2 ^ 64
    if input_amount = 0 then
      -- execution price is NaN in Rust; `NaN as u16` is 0
      (output_amount, 0)
    else
      let spot_price : ℚ := (reserve_out : ℚ) / (reserve_in : ℚ)
      let execution_price : ℚ := (output_amount : ℚ) / (input_amount : ℚ)
      let impact : ℚ := |(spot_price - execution_price) / spot_price|
      (output_amount, fCastNat (2 ^ 16 - 1) (impact * 10000))

/-- Source `PoolState::calculate_clmm_impact`.  `liquidity.checked_div(1_000_000)`
always returns `Some` (constant divisor), so the `else` arm of the source
is dead.  When the quotient is zero, the Rust ratio
`input / 0.0` is `∞` (or NaN for a zero input) and `.min(1.0)` yields `1.0`
either way; that is the first branch. -/
def PoolState.calculate_clmm_impact (p : PoolState)
    (input_amount : Nat) : Nat × Nat :=
  let liquidityM := p.liquidity / 1000000
  let impact_pct : ℚ :=
    if liquidityM = 0 then 1
    else min ((input_amount : ℚ) / (liquidityM : ℚ)) 1
  let impact_bps := fCastNat (2 ^ 16 - 1) (impact_pct * 10000)
  let output := fCastNat (2 ^ 64 - 1) ((input_amount : ℚ) * (1 - impact_pct * (1/2)))
  (output, impact_bps)

/-- Source `PoolState::calculate_dlmm_impact`.  `liquidity as f64 / 1_000_000.0`
is exact rational division; it is zero only for zero liquidity, in which
case `.min(1.0)` again collapses the infinite/NaN ratio to `1.0`. -/
def PoolState.calculate_dlmm_impact (p : PoolState)
    (input_amount : Nat) : Nat × Nat :=
  let liquidityQ : ℚ := (p.liquidity : ℚ) / 1000000
  let impact_pct : ℚ :=
    if liquidityQ = 0 then 1
    else min ((input_amount : ℚ) / liquidityQ) 1
  let impact_bps := fCastNat (2 ^ 16 - 1) (impact_pct * 10000)
  let bin_step_impact : ℚ := ((p.bin_step.getD 1 : Nat) : ℚ) / 100
  let adjusted_impact := (impact_bps : ℚ) * (1 + bin_step_impact)
  let output := fCastNat (2 ^ 64 - 1) ((input_amount : ℚ) * (1 - impact_pct * (3/10)))
  (output, fCastNat (2 ^ 16 - 1) adjusted_impact)

/-- Source `PoolState::calculate_price_impact`: dispatch on the DEX variant. -/
def PoolState.calculate_price_impact (p : PoolState)
    (input_amount : Nat) (is_a_to_b : Bool) : Nat × Nat :=
  let reserve_in := if is_a_to_b then p.reserve_a else p.reserve_b
  let reserve_out := if is_a_to_b then p.reserve_b else p.reserve_a
  match p.dex_type with
  | .RaydiumClmm => p.calculate_clmm_impact input_amount
  | .OrcaWhirlpool => p.calculate_clmm_impact input_amount
  | .MeteoraDlmm => p.calculate_dlmm_impact input_amount
  | _ => p.calculate_cpmm_impact input_amount reserve_in reserve_out

/-- The `impact_score` step table of `PoolState::execution_probability`
(a `match` over inclusive basis-point ranges in the source). -/
def impactScore (impact_bps : Nat) : ℚ :=
  if impact_bps ≤ 50 then 1
  else if impact_bps ≤ 100 then 9/10
  else if impact_bps ≤ 200 then 7/10
  else if impact_bps ≤ 500 then 1/2
  else if impact_bps ≤ 1000 then 3/10
  else 1/10

/-- The `liquidity_score` step table of
`PoolState::execution_probability`. -/
def liquidityScore (liquidity : Nat) : ℚ :=
  if 100000000 < liquidity then 1
  else if 10000000 < liquidity then 8/10
  else if 1000000 < liquidity then 6/10
  else 3/10

/-- The `recency_score` step table of `PoolState::execution_probability`
(`0.6` when no trade has been seen; the `u64` age subtraction wraps). -/
def recencyScore (last_trade_timestamp : Option Nat) (now : Nat) : ℚ :=
  match last_trade_timestamp with
  | some last_trade =>
      let age_secs := wsub64 now last_trade
      if age_secs ≤ 60 then 1
      else if age_secs ≤ 300 then 9/10
      else if age_secs ≤ 3600 then 7/10
      else 1/2
  | none => 6/10

/-- Source `PoolState::execution_probability`: a weighted sum of three
step-function scores (price impact, liquidity, trade recency); `now` is
`current_timestamp()`. -/
def PoolState.execution_probability (p : PoolState)
    (trade_size : Nat) (is_a_to_b : Bool) (now : Nat) : ℚ :=
  let impact_bps := (p.calculate_price_impact trade_size is_a_to_b).2
  impactScore impact_bps * (1/2) + liquidityScore p.liquidity * (3/10) +
    recencyScore p.last_trade_timestamp now * (1/5)

/-- Source `TokenPairKey` of `liquidity_monitor.rs` (normalized by the base58
string order of the two keys). -/
structure TokenPairKey where
  token_a : Pubkey
  token_b : Pubkey
deriving DecidableEq, Repr

/-- Source `TokenPairKey::new`. -/
def TokenPairKey.new (token_a token_b : Pubkey) : TokenPairKey :=
  if pubkeyStrLt token_a token_b then
    ⟨token_a, token_b⟩
  else
    ⟨token_b, token_a⟩

/-- Source `LiquidityMonitor`. -/
structure LiquidityMonitor where
  pools : List (Pubkey × PoolState)
  token_pair_pools : List (TokenPairKey × List Pubkey)
  max_pool_age_secs : Nat
deriving Repr

/-- Source `LiquidityMonitor::new`. -/
def LiquidityMonitor.new (max_pool_age_secs : Nat) : LiquidityMonitor :=
  ⟨[], [], max_pool_age_secs⟩

/-- The `entry(pair).or_insert_with(Vec::new).push(addr)` step of
`update_pool`: the address is appended on every call. -/
def pairIndexPush (l : List (TokenPairKey × List Pubkey)) (k : TokenPairKey)
    (addr : Pubkey) : List (TokenPairKey × List Pubkey) :=
  if l.any (fun p => p.1 = k) then
    l.map (fun p => if p.1 = k then (p.1, p.2 ++ [addr]) else p)
  else
    l ++ [(k, [addr])]

/-- Source `LiquidityMonitor::update_pool`: inserts the state unconditionally
(no tradability validation) and appends to the pair index. -/
def LiquidityMonitor.update_pool (m : LiquidityMonitor) (pool_state : PoolState) :
    LiquidityMonitor :=
  let pool_address := pool_state.pool_address
  let pair_key := TokenPairKey.new pool_state.token_a pool_state.token_b
  { m with
    pools := alistInsert m.pools pool_address pool_state
    token_pair_pools := pairIndexPush m.token_pair_pools pair_key pool_address }

/-- Source `LiquidityMonitor::get_pools_for_pair` (staleness filter over the
indexed addresses; the `u64` age subtraction wraps). -/
def LiquidityMonitor.get_pools_for_pair (m : LiquidityMonitor)
    (token_a token_b : Pubkey) (now : Nat) : List PoolState :=
  let pair_key := TokenPairKey.new token_a token_b
  match alistLookup m.token_pair_pools pair_key with
  | some pool_addresses =>
      (pool_addresses.filterMap (fun addr => alistLookup m.pools addr)).filter
        (fun pool => wsub64 now pool.last_updated ≤ m.max_pool_age_secs)
  | none => []

/-! ## `src/streaming/enhanced_arbitrage.rs` -/

/-- Source `TokenPair` of `enhanced_arbitrage.rs`: normalized by the *base58
string* order of the two keys (`token_a.to_string() < token_b.to_string()`),
not by their byte order. -/
structure TokenPair where
  base : Pubkey
  quote : Pubkey
deriving DecidableEq, Repr

/-- Source `TokenPair::new` of `enhanced_arbitrage.rs`. -/
def TokenPair.new (token_a token_b : Pubkey) : TokenPair :=
  if pubkeyStrLt token_a token_b then
    ⟨token_a, token_b⟩
  else
    ⟨token_b, token_a⟩

/-- Source `ConfidenceLevel`. -/
inductive ConfidenceLevel
  | VeryHigh
  | High
  | Medium
  | Low
  | VeryLow
deriving DecidableEq, Repr

/-- Source `EnhancedArbitrageOpportunity`. -/
structure EnhancedArbitrageOpportunity where
  token_pair : TokenPair
  buy_pool : Pubkey
  sell_pool : Pubkey
  buy_dex : DexType
  sell_dex : DexType
  buy_price : ℚ
  sell_price : ℚ
  gross_profit_pct : ℚ
  optimal_trade_size : Nat
  expected_input : Nat
  expected_output : Nat
  expected_profit : Nat
  total_fees : Nat
  total_fee_pct : ℚ
  estimated_gas_lamports : Nat
  net_profit : Int
  net_profit_pct : ℚ
  buy_pool_impact_bps : Nat
  sell_pool_impact_bps : Nat
  buy_execution_prob : ℚ
  sell_execution_prob : ℚ
  combined_execution_prob : ℚ
  expected_value : ℚ
  ev_score : ℚ
  timestamp : Nat
  confidence_level : ConfidenceLevel
deriving DecidableEq, Repr

/-- Source `EnhancedArbitrageOpportunity::is_executable`. -/
def EnhancedArbitrageOpportunity.is_executable (o : EnhancedArbitrageOpportunity)
    (min_ev_score min_net_profit_pct : ℚ) : Bool :=
  min_ev_score ≤ o.ev_score ∧ min_net_profit_pct ≤ o.net_profit_pct ∧
    3/10 < o.combined_execution_prob

/-- Source `MonitoredPair` (the `name : String` field is dropped: it is only
ever logged). -/
structure MonitoredPair where
  token_a : Pubkey
  token_b : Pubkey
  min_trade_size : Nat
  max_trade_size : Nat
  target_pools : List Pubkey
deriving Repr

/-- Source `EnhancedArbitrageDetector`. -/
structure EnhancedArbitrageDetector where
  liquidity_monitor : LiquidityMonitor
  monitored_pairs : List MonitoredPair
  opportunities : List EnhancedArbitrageOpportunity
  min_net_profit_pct : ℚ
  min_execution_prob : ℚ
  min_ev_score : ℚ
  max_opportunities : Nat
  base_gas_per_tx : Nat
  jito_bundle_tip : Nat
deriving Repr

/-- Source `EnhancedArbitrageDetector::new`. -/
def EnhancedArbitrageDetector.new (monitored_pairs : List MonitoredPair)
    (min_net_profit_pct min_execution_prob : ℚ) : EnhancedArbitrageDetector :=
  { liquidity_monitor := LiquidityMonitor.new 60
    monitored_pairs := monitored_pairs
    opportunities := []
    min_net_profit_pct := min_net_profit_pct
    min_execution_prob := min_execution_prob
    min_ev_score := 10
    max_opportunities := 100
    base_gas_per_tx := 10000
    jito_bundle_tip := 1000000 }

/-- Source `EnhancedArbitrageDetector::update_pool_state`. -/
def EnhancedArbitrageDetector.update_pool_state (d : EnhancedArbitrageDetector)
    (pool_state : PoolState) : EnhancedArbitrageDetector :=
  { d with liquidity_monitor := d.liquidity_monitor.update_pool pool_state }

/-- Source `EnhancedArbitrageDetector::evaluate_trade_size`.  `trade_size = 0`
forces a zero intermediate amount in every variant, so the divisions by
`trade_size` below are reached only with a positive trade size. -/
def EnhancedArbitrageDetector.evaluate_trade_size (d : EnhancedArbitrageDetector)
    (token_pair : TokenPair) (buy_pool sell_pool : PoolState)
    (trade_size : Nat) (is_a_to_b : Bool) (now : Nat) :
    Option EnhancedArbitrageOpportunity :=
  let r1 := buy_pool.calculate_price_impact trade_size is_a_to_b
  let intermediate_amount := r1.1
  let buy_impact := r1.2
  if intermediate_amount = 0 then none
  else
    let r2 := sell_pool.calculate_price_impact intermediate_amount (!is_a_to_b)
    let final_amount := r2.1
    let sell_impact := r2.2
    if final_amount = 0 then none
    else
      let buy_price : ℚ := (intermediate_amount : ℚ) / (trade_size : ℚ)
      let sell_price : ℚ := (final_amount : ℚ) / (intermediate_amount : ℚ)
      let gross_profit : Int := (final_amount : Int) - (trade_size : Int)
      let gross_profit_pct : ℚ := ((gross_profit : ℚ) / (trade_size : ℚ)) * 100
      let buy_fee : ℚ := ((trade_size : ℚ) * (buy_pool.total_fee_bps : ℚ)) / 10000
      let sell_fee : ℚ := ((intermediate_amount : ℚ) * (sell_pool.total_fee_bps : ℚ)) / 10000
      let total_fees := fCastNat (2 ^ 64 - 1) (buy_fee + sell_fee)
      let total_fee_pct : ℚ := ((buy_fee + sell_fee) / (trade_size : ℚ)) * 100
      let estimated_gas := d.base_gas_per_tx * 2 + d.jito_bundle_tip
      let net_profit : Int := gross_profit - (total_fees : Int) - (estimated_gas : Int)
      let net_profit_pct : ℚ := ((net_profit : ℚ) / (trade_size : ℚ)) * 100
      let buy_prob := buy_pool.execution_probability trade_size is_a_to_b now
      let sell_prob := sell_pool.execution_probability intermediate_amount (!is_a_to_b) now
      let combined_prob := buy_prob * sell_prob
      let expected_value : ℚ := (net_profit : ℚ) * combined_prob
      let ev_score : ℚ := (expected_value / 10000) * 10 + net_profit_pct * combined_prob
      let confidence :=
        if 8/10 < combined_prob ∧ 1 < net_profit_pct then ConfidenceLevel.VeryHigh
        else if 6/10 < combined_prob ∧ 1/2 < net_profit_pct then ConfidenceLevel.High
        else if 4/10 < combined_prob ∧ 3/10 < net_profit_pct then ConfidenceLevel.Medium
        else if 1/5 < combined_prob then ConfidenceLevel.Low
        else ConfidenceLevel.VeryLow
      some
        { token_pair := token_pair
          buy_pool := buy_pool.pool_address
          sell_pool := sell_pool.pool_address
          buy_dex := buy_pool.dex_type
          sell_dex := sell_pool.dex_type
          buy_price := buy_price
          sell_price := sell_price
          gross_profit_pct := gross_profit_pct
          optimal_trade_size := trade_size
          expected_input := trade_size
          expected_output := final_amount
          expected_profit := (max gross_profit 0).toNat
          total_fees := total_fees
          total_fee_pct := total_fee_pct
          estimated_gas_lamports := estimated_gas
          net_profit := net_profit
          net_profit_pct := net_profit_pct
          buy_pool_impact_bps := buy_impact
          sell_pool_impact_bps := sell_impact
          buy_execution_prob := buy_prob
          sell_execution_prob := sell_prob
          combined_execution_prob := combined_prob
          expected_value := expected_value
          ev_score := ev_score
          timestamp := now
          confidence_level := confidence }

/-- Source `EnhancedArbitrageDetector::calculate_arbitrage`: grid search over 21
trade sizes keeping the strictly best expected value (starting from 0, so
an opportunity with non-positive EV is never selected). -/
def EnhancedArbitrageDetector.calculate_arbitrage (d : EnhancedArbitrageDetector)
    (pair_config : MonitoredPair) (buy_pool sell_pool : PoolState)
    (is_a_to_b : Bool) (now : Nat) : Option EnhancedArbitrageOpportunity :=
  let token_pair := TokenPair.new pair_config.token_a pair_config.token_b
  let step_count := 20
  let step_size := (pair_config.max_trade_size - pair_config.min_trade_size) / step_count
  (List.range (step_count + 1)).foldl
    (fun acc i =>
      let trade_size := pair_config.min_trade_size + i * step_size
      match d.evaluate_trade_size token_pair buy_pool sell_pool trade_size is_a_to_b now with
      | some opp =>
          let best_ev := match acc with
            | some best => best.expected_value
            | none => 0
          if best_ev < opp.expected_value then some opp else acc
      | none => acc)
    none

/-- The inner double loop of
`EnhancedArbitrageDetector::find_opportunities_for_pair`: for each `i < j`
with distinct DEX types, try both directions and keep the executable
candidates. -/
def EnhancedArbitrageDetector.pairScan (d : EnhancedArbitrageDetector)
    (pair_config : MonitoredPair) (now : Nat) :
    List PoolState → List EnhancedArbitrageOpportunity
  | [] => []
  | pool1 :: rest =>
      (rest.flatMap (fun pool2 =>
        if pool1.dex_type = pool2.dex_type then []
        else
          let o1 := match d.calculate_arbitrage pair_config pool1 pool2 true now with
            | some opp =>
                if opp.is_executable d.min_ev_score d.min_net_profit_pct then [opp] else []
            | none => []
          let o2 := match d.calculate_arbitrage pair_config pool2 pool1 true now with
            | some opp =>
                if opp.is_executable d.min_ev_score d.min_net_profit_pct then [opp] else []
            | none => []
          o1 ++ o2)) ++ d.pairScan pair_config now rest

/-- Source `EnhancedArbitrageDetector::find_opportunities_for_pair`. -/
def EnhancedArbitrageDetector.find_opportunities_for_pair
    (d : EnhancedArbitrageDetector) (pair_config : MonitoredPair) (now : Nat) :
    List EnhancedArbitrageOpportunity :=
  let pools := d.liquidity_monitor.get_pools_for_pair
    pair_config.token_a pair_config.token_b now
  if pools.length < 2 then []
  else d.pairScan pair_config now pools

/-- Descending `ev_score` comparison used by the `sort_by` call of
`scan_arbitrage_opportunities`. -/
def evDescBool (a b : EnhancedArbitrageOpportunity) : Bool :=
  decide (b.ev_score ≤ a.ev_score)

/-- Source `EnhancedArbitrageDetector::scan_arbitrage_opportunities`: gather,
sort by `ev_score` descending, truncate to `max_opportunities`, store,
and return the stored list. -/
def EnhancedArbitrageDetector.scan_arbitrage_opportunities
    (d : EnhancedArbitrageDetector) (now : Nat) :
    EnhancedArbitrageDetector × List EnhancedArbitrageOpportunity :=
  let new_opportunities :=
    d.monitored_pairs.flatMap (fun pc => d.find_opportunities_for_pair pc now)
  let sorted := new_opportunities.mergeSort evDescBool
  let capped := sorted.take d.max_opportunities
  ({ d with opportunities := capped }, capped)

/-- Source `EnhancedArbitrageDetector::get_opportunities`. -/
def EnhancedArbitrageDetector.get_opportunities (d : EnhancedArbitrageDetector) :
    List EnhancedArbitrageOpportunity :=
  d.opportunities

/-- Source `EnhancedArbitrageDetector::get_top_opportunities`. -/
def EnhancedArbitrageDetector.get_top_opportunities (d : EnhancedArbitrageDetector)
    (n : Nat) : List EnhancedArbitrageOpportunity :=
  d.opportunities.take n

/-! ## `src/flash_loan/opportunity_detector.rs` -/

/-- Source `PoolProtocol`. -/
inductive PoolProtocol
  | RaydiumClmm
  | RaydiumAmmV4
deriving DecidableEq, Repr

/-- Source `TokenPair` of `opportunity_detector.rs`: normalized by the *byte*
order of the two keys (`token0 < token1` on `Pubkey`). -/
structure FlTokenPair where
  token0 : Pubkey
  token1 : Pubkey
deriving DecidableEq, Repr

/-- Source `TokenPair::new` of `opportunity_detector.rs`. -/
def FlTokenPair.new (token0 token1 : Pubkey) : FlTokenPair :=
  if pubkeyByteLt token0 token1 then
    ⟨token0, token1⟩
  else
    ⟨token1, token0⟩

/-- Source `PoolPrice` (timestamps are `chrono` `i64` seconds). -/
structure PoolPrice where
  pool : Pubkey
  protocol : PoolProtocol
  price : ℚ
  liquidity : Nat
  token0 : Pubkey
  token1 : Pubkey
  timestamp : Int
deriving DecidableEq, Repr

/-- Source `ArbitrageOpportunity` of `opportunity_detector.rs`. -/
structure ArbitrageOpportunity where
  pool_a : Pubkey
  pool_b : Pubkey
  pool_a_protocol : PoolProtocol
  pool_b_protocol : PoolProtocol
  base_token : Pubkey
  quote_token : Pubkey
  price_a : ℚ
  price_b : ℚ
  expected_profit : Nat
  loan_amount : Nat
  timestamp : Int
  confidence : Nat
deriving DecidableEq, Repr

/-- Modelled from the spec: the CLMM pool-state payload
(`event_parser::protocols::raydium_clmm::types::PoolState`) lives in the
event-parser module of this repository, which is not part of the provided
sources.  Spec §3 gives its essential fields: the Q64.64 square-root
price, the 128-bit liquidity, and the two token mints (ordered as the
protocol stores them); these are exactly the fields
`opportunity_detector.rs` reads. -/
structure ClmmPoolState where
  sqrt_price_x64 : Nat
  liquidity : Nat
  token_mint0 : Pubkey
  token_mint1 : Pubkey
deriving DecidableEq, Repr

/-- Modelled from the spec: a pool-state-update event carries the pool id
and the full state payload (spec §6). -/
structure ClmmPoolStateAccountEvent where
  pubkey : Pubkey
  pool_state : ClmmPoolState
deriving DecidableEq, Repr

/-- Source `OpportunityDetector` (the AMMv4 cache and its update path are not
exercised by any claim and are omitted; the CLMM path and the shared
price feed are embedded in full). -/
structure OpportunityDetector where
  clmm_pool_states : List (Pubkey × ClmmPoolState)
  price_feed : List (FlTokenPair × List PoolPrice)
  min_profit_threshold : Nat
  max_loan_amount : Nat
  min_liquidity_threshold : Nat
  min_combined_liquidity : Nat
deriving Repr

/-- Source `OpportunityDetector::new`. -/
def OpportunityDetector.new (min_profit_threshold max_loan_amount : Nat)
    (min_liquidity_threshold min_combined_liquidity : Nat) : OpportunityDetector :=
  { clmm_pool_states := []
    price_feed := []
    min_profit_threshold := min_profit_threshold
    max_loan_amount := max_loan_amount
    min_liquidity_threshold := min_liquidity_threshold
    min_combined_liquidity := min_combined_liquidity }

/-- Source `OpportunityDetector::new_high_liquidity`. -/
def OpportunityDetector.new_high_liquidity : OpportunityDetector :=
  OpportunityDetector.new 1000000 100000000000 10000000000 50000000000

/-- Source `OpportunityDetector::calculate_clmm_price`:
`price = (sqrt_price_x64 / 2^64)^2`, rejecting a zero square-root price
and non-positive results. -/
def OpportunityDetector.calculate_clmm_price (pool : ClmmPoolState) : Option ℚ :=
  if pool.sqrt_price_x64 = 0 then none
  else
    let sqrt_price : ℚ := (pool.sqrt_price_x64 : ℚ) / ((2 ^ 64 : Nat) : ℚ)
    let price := sqrt_price * sqrt_price
    if price ≤ 0 then none else some price

/-- Replace the first price entry carrying the same pool id
(`prices.iter_mut().find(|p| p.pool == pool)`). -/
def replaceFirstPool : List PoolPrice → PoolPrice → List PoolPrice
  | [], _ => []
  | p :: ps, pp => if p.pool = pp.pool then pp :: ps else p :: replaceFirstPool ps pp

/-- The body `update_price_feed` applies to the touched pair's price
list: replace the entry of the same pool (or append a new one), then
purge entries of that list that are 30 seconds old or older. -/
def touchPrices (prices : List PoolPrice) (pool_price : PoolPrice) (now : Int) :
    List PoolPrice :=
  let updated :=
    if prices.any (fun p => p.pool = pool_price.pool) then replaceFirstPool prices pool_price
    else prices ++ [pool_price]
  updated.filter (fun p => now - p.timestamp < 30)

/-- Source `OpportunityDetector::update_price_feed`: update-or-append the pool's
entry in the pair's price list, then purge stale entries of that list. -/
def OpportunityDetector.update_price_feed (d : OpportunityDetector)
    (pair : FlTokenPair) (pool : Pubkey) (price : ℚ) (liquidity : Nat)
    (token0 token1 : Pubkey) (protocol : PoolProtocol) (now : Int) :
    OpportunityDetector :=
  let pool_price : PoolPrice :=
    { pool := pool, protocol := protocol, price := price, liquidity := liquidity
      token0 := token0, token1 := token1, timestamp := now }
  let feed :=
    if d.price_feed.any (fun e => e.1 = pair) then
      d.price_feed.map (fun e => if e.1 = pair then (e.1, touchPrices e.2 pool_price now) else e)
    else
      d.price_feed ++ [(pair, touchPrices [] pool_price now)]
  { d with price_feed := feed }

/-- Source `OpportunityDetector::update_clmm_pool_state`: rejects (is a no-op
for) a state with a zero square-root price or zero liquidity, otherwise
stores the state and refreshes the pair's price feed. -/
def OpportunityDetector.update_clmm_pool_state (d : OpportunityDetector)
    (event : ClmmPoolStateAccountEvent) (now : Int) : OpportunityDetector :=
  let pool_state := event.pool_state
  if pool_state.sqrt_price_x64 = 0 ∨ pool_state.liquidity = 0 then d
  else
    let d1 := { d with
      clmm_pool_states := alistInsert d.clmm_pool_states event.pubkey pool_state }
    match OpportunityDetector.calculate_clmm_price pool_state with
    | none => d1
    | some price =>
        let pair := FlTokenPair.new pool_state.token_mint0 pool_state.token_mint1
        d1.update_price_feed pair event.pubkey price pool_state.liquidity
          pool_state.token_mint0 pool_state.token_mint1 PoolProtocol.RaydiumClmm now

/-- Source `OpportunityDetector::find_price_spread`: fold keeping the strictly
smallest and strictly largest price, seeded with the first entry. -/
def OpportunityDetector.find_price_spread (prices : List PoolPrice) :
    Option (PoolPrice × PoolPrice) :=
  match prices with
  | [] => none
  | first :: rest =>
      some (rest.foldl
        (fun (acc : PoolPrice × PoolPrice) price =>
          let lo := if price.price < acc.1.price then price else acc.1
          let hi := if acc.2.price < price.price then price else acc.2
          (lo, hi))
        (first, first))

/-- Source `OpportunityDetector::calculate_optimal_loan_size`: a liquidity-tier
fraction of the smaller pool's liquidity, wrapped to `u64`, clamped above
by `max_loan_amount` and *then* below by `100_000`. -/
def OpportunityDetector.calculate_optimal_loan_size (d : OpportunityDetector)
    (buy_pool sell_pool : PoolPrice) : Nat :=
  let min_liquidity := min buy_pool.liquidity sell_pool.liquidity
  let percentage : Nat :=
    if 100000000000 < min_liquidity then 15
    else if 50000000000 < min_liquidity then 10
    else if 20000000000 < min_liquidity then 5
    else 2
  let loan := (min_liquidity / percentage) % 2 ^ 64
  max (min loan d.max_loan_amount) 100000

/-- Source `OpportunityDetector::calculate_confidence`. -/
def OpportunityDetector.calculate_confidence (buy_pool sell_pool : PoolPrice)
    (spread_pct : ℚ) (now : Int) : Nat :=
  let min_liquidity := min buy_pool.liquidity sell_pool.liquidity
  let combined_liquidity := buy_pool.liquidity + sell_pool.liquidity
  let c1 : Nat :=
    if 100000000000 < min_liquidity then 30
    else if 50000000000 < min_liquidity then 25
    else if 10000000000 < min_liquidity then 15
    else if 5000000000 < min_liquidity then 10
    else if 1000000000 < min_liquidity then 5
    else 0
  let c2 : Nat :=
    if 200000000000 < combined_liquidity then 20
    else if 100000000000 < combined_liquidity then 15
    else if 50000000000 < combined_liquidity then 10
    else 0
  let c3 : Nat :=
    if 5/100 < spread_pct then 20
    else if 3/100 < spread_pct then 15
    else if 1/100 < spread_pct then 10
    else if 5/1000 < spread_pct then 5
    else 0
  let max_age := max (now - buy_pool.timestamp) (now - sell_pool.timestamp)
  let c4 : Nat :=
    if max_age < 2 then 10
    else if max_age < 5 then 7
    else if max_age < 10 then 5
    else if max_age < 30 then 2
    else 0
  min (c1 + c2 + c3 + c4) 100

/-- Source `OpportunityDetector::calculate_profit`.  The explicit constants of
the source: `FLASH_LOAN_FEE_RATE = 0.0009` and `SWAP_FEE_RATE = 0.0025`
(both `const` items inside the function, not configuration).  The
finiteness guards of the `f64` source hold identically in `ℚ`. -/
def OpportunityDetector.calculate_profit (d : OpportunityDetector)
    (buy_pool sell_pool : PoolPrice) (now : Int) : Option ArbitrageOpportunity :=
  if buy_pool.price ≤ 0 ∨ sell_pool.price ≤ 0 then none
  else
    let price_diff := sell_pool.price - buy_pool.price
    if price_diff ≤ 0 then none
    else
      let price_spread_pct := price_diff / buy_pool.price
      if price_spread_pct < 1/100 then none
      else
        let optimal_loan := d.calculate_optimal_loan_size buy_pool sell_pool
        if optimal_loan = 0 then none
        else
          let flashLoanFeeRate : ℚ := 9/10000
          let swapFeeRate : ℚ := 25/10000
          let swap_fee_multiplier := (1 - swapFeeRate) * (1 - swapFeeRate)
          let price_multiplier := sell_pool.price / buy_pool.price
          let net_received := (optimal_loan : ℚ) * swap_fee_multiplier * price_multiplier
          let repayment := (optimal_loan : ℚ) * (1 + flashLoanFeeRate)
          if net_received ≤ repayment then none
          else
            let expected_profit := fCastNat (2 ^ 64 - 1) (net_received - repayment)
            let confidence :=
              OpportunityDetector.calculate_confidence buy_pool sell_pool price_spread_pct now
            some
              { pool_a := buy_pool.pool
                pool_b := sell_pool.pool
                pool_a_protocol := buy_pool.protocol
                pool_b_protocol := sell_pool.protocol
                base_token := buy_pool.token0
                quote_token := buy_pool.token1
                price_a := buy_pool.price
                price_b := sell_pool.price
                expected_profit := expected_profit
                loan_amount := optimal_loan
                timestamp := now
                confidence := confidence }

/-- Source `OpportunityDetector::find_arbitrage_opportunity`. -/
def OpportunityDetector.find_arbitrage_opportunity (d : OpportunityDetector)
    (pair : FlTokenPair) (now : Int) : Option ArbitrageOpportunity :=
  match alistLookup d.price_feed pair with
  | none => none
  | some prices =>
      if prices.length < 2 then none
      else
        let high_liquidity_prices :=
          prices.filter (fun p => d.min_liquidity_threshold ≤ p.liquidity)
        if high_liquidity_prices.length < 2 then none
        else
          match OpportunityDetector.find_price_spread high_liquidity_prices with
          | none => none
          | some (min_price_pool, max_price_pool) =>
              let combined_liquidity := min_price_pool.liquidity + max_price_pool.liquidity
              if combined_liquidity < d.min_combined_liquidity then none
              else
                let price_diff := max_price_pool.price - min_price_pool.price
                if price_diff ≤ 0 then none
                else
                  match d.calculate_profit min_price_pool max_price_pool now with
                  | none => none
                  | some profit =>
                      if profit.expected_profit < d.min_profit_threshold then none
                      else some profit

/-! ## `src/streaming/pyth_price_monitor.rs` and
`src/streaming/pyth_arb_validator.rs` -/

/-- Source `PythPriceData` (the `symbol : String` field, used only in log
output, is dropped; `last_updated` is a `SystemTime` in seconds). -/
structure PythPriceData where
  price : ℚ
  confidence : ℚ
  expo : Int
  ema_price : ℚ
  ema_confidence : ℚ
  publish_time : Int
  last_updated : Nat
deriving DecidableEq, Repr

/-- Source `PythPriceData::is_fresh`: `last_updated.elapsed()` errors (and the
price counts as stale) when the clock reads earlier than `last_updated`;
otherwise the age must be strictly below `max_age_secs`. -/
def PythPriceData.is_fresh (p : PythPriceData) (now max_age_secs : Nat) : Bool :=
  if p.last_updated ≤ now then decide (now - p.last_updated < max_age_secs) else false

/-- Source `PythPriceData::confidence_pct`. -/
def PythPriceData.confidence_pct (p : PythPriceData) : ℚ :=
  if p.price = 0 then 100 else (p.confidence / p.price) * 100

/-- Source `PythPriceData::normalized_price`: `price × 10^expo`. -/
def PythPriceData.normalized_price (p : PythPriceData) : ℚ :=
  p.price * (10 : ℚ) ^ p.expo

/-- The distinct early-return sites of
`PythArbValidator::validate_opportunity`, in source order (the `reason`
strings of the source, as a tag). -/
inductive VReason
  | noOracle
  | staleOracle
  | wideConfidence
  | priceDeviation
  | buyDeviation
  | sellDeviation
  | passed
deriving DecidableEq, Repr

/-- Source `ValidationResult` (the formatted `reason : String` is abstracted to
its `VReason` tag). -/
structure ValidationResult where
  is_valid : Bool
  reason : VReason
  oracle_price : Option ℚ
  pool_price : Option ℚ
  deviation_pct : Option ℚ
  confidence_pct : Option ℚ
deriving DecidableEq, Repr

/-- Source `ValidationResult::invalid`. -/
def ValidationResult.invalid (reason : VReason) : ValidationResult :=
  ⟨false, reason, none, none, none, none⟩

/-- Source `ValidationResult::with_metrics`. -/
def ValidationResult.with_metrics (is_valid : Bool) (reason : VReason)
    (oracle_price pool_price deviation_pct confidence_pct : ℚ) : ValidationResult :=
  ⟨is_valid, reason, some oracle_price, some pool_price, some deviation_pct,
    some confidence_pct⟩

/-- Source `OracleValidationConfig`. -/
structure OracleValidationConfig where
  max_price_deviation_pct : ℚ
  max_oracle_confidence_pct : ℚ
  max_staleness_secs : Nat
  require_both_pools : Bool
deriving DecidableEq, Repr

/-- Source `OracleValidationConfig::default`, which is also the `balanced`
preset. -/
def OracleValidationConfig.default : OracleValidationConfig :=
  { max_price_deviation_pct := 5
    max_oracle_confidence_pct := 1
    max_staleness_secs := 60
    require_both_pools := true }

/-- Source `OracleValidationConfig::conservative`. -/
def OracleValidationConfig.conservative : OracleValidationConfig :=
  { max_price_deviation_pct := 2
    max_oracle_confidence_pct := 1/2
    max_staleness_secs := 30
    require_both_pools := true }

/-- Source `OracleValidationConfig::balanced`. -/
def OracleValidationConfig.balanced : OracleValidationConfig :=
  OracleValidationConfig.default

/-- Source `OracleValidationConfig::aggressive`. -/
def OracleValidationConfig.aggressive : OracleValidationConfig :=
  { max_price_deviation_pct := 10
    max_oracle_confidence_pct := 2
    max_staleness_secs := 120
    require_both_pools := false }

/-- Source `PythArbValidator::validate_opportunity`: a pure function of the
configuration, the oracle record returned for the candidate's token pair
(`none` when the monitor has no feed), the clock, and the candidate.  The
gates run in source order: absent feed, staleness, confidence width,
average-pool-price deviation, then the two per-leg deviations when
`require_both_pools` is set. -/
def validate_opportunity (cfg : OracleValidationConfig)
    (oracle : Option PythPriceData) (now : Nat)
    (opp : EnhancedArbitrageOpportunity) : ValidationResult :=
  match oracle with
  | none => ValidationResult.invalid VReason.noOracle
  | some oracle_data =>
      if ¬ oracle_data.is_fresh now cfg.max_staleness_secs then
        ValidationResult.invalid VReason.staleOracle
      else
        let conf_pct := oracle_data.confidence_pct
        if cfg.max_oracle_confidence_pct < conf_pct then
          ValidationResult.with_metrics false VReason.wideConfidence
            oracle_data.normalized_price 0 0 conf_pct
        else
          let avg_pool_price := (opp.buy_price + opp.sell_price) / 2
          let oracle_norm_price := oracle_data.normalized_price
          let deviation_pct := |(avg_pool_price - oracle_norm_price) / oracle_norm_price| * 100
          if cfg.max_price_deviation_pct < deviation_pct then
            ValidationResult.with_metrics false VReason.priceDeviation
              oracle_norm_price avg_pool_price deviation_pct conf_pct
          else
            let buy_dev := |(opp.buy_price - oracle_norm_price) / oracle_norm_price| * 100
            let sell_dev := |(opp.sell_price - oracle_norm_price) / oracle_norm_price| * 100
            if cfg.require_both_pools ∧ cfg.max_price_deviation_pct < buy_dev then
              ValidationResult.with_metrics false VReason.buyDeviation
                oracle_norm_price opp.buy_price buy_dev conf_pct
            else if cfg.require_both_pools ∧ cfg.max_price_deviation_pct < sell_dev then
              ValidationResult.with_metrics false VReason.sellDeviation
                oracle_norm_price opp.sell_price sell_dev conf_pct
            else
              ValidationResult.with_metrics true VReason.passed
                oracle_norm_price avg_pool_price deviation_pct conf_pct

/-! ## Spec-side definitions (for refinement comparisons) and predicates -/

/-- The CPMM quote as the spec writes it:
`y = floor(R_out · x' / (R_in + x'))` with
`x' = floor(x · (10000 − fee_bps) / 10000)`, and the price impact in
basis points `|spot − execution| / spot × 10000` (read in integral basis
points), `spot = R_out / R_in`, `execution = y / x`. -/
def cpmm_quote_spec (fee_bps x rin rout : Nat) : Nat × Nat :=
  let xf := x * (10000 - fee_bps) / 10000
  let y := rout * xf / (rin + xf)
  let spot : ℚ := (rout : ℚ) / (rin : ℚ)
  let execution : ℚ := (y : ℚ) / (x : ℚ)
  (y, (⌊|spot - execution| / spot * 10000⌋).toNat)

/-- Modelled from the spec: the pure-EV score normalization mandated by
§4.4, `ev_score = min(EV / SCALE, 100)` with `SCALE = 10000`. -/
def ev_score_pure_spec (ev : ℚ) : ℚ :=
  min (ev / 10000) 100

/-- Modelled from the spec: the §4.3 simplified net profit with a
*configurable* flash-loan rate,
`net = L·(1−f1)·(1−f2)·(sell/buy) − L·(1 + flash_rate)`. -/
def flash_net_spec (flash_rate f1 f2 : ℚ) (loan : Nat) (buy_price sell_price : ℚ) : ℚ :=
  (loan : ℚ) * ((1 - f1) * (1 - f2)) * (sell_price / buy_price) -
    (loan : ℚ) * (1 + flash_rate)

/-- Per-pair price lists never hold two entries for the same pool. -/
def FeedNodup (feed : List (FlTokenPair × List PoolPrice)) : Prop :=
  ∀ e ∈ feed, (e.2.map PoolPrice.pool).Nodup

/-- Number of entries the secondary index holds for a pair key. -/
def pairIndexCount (l : List (TokenPairKey × List Pubkey)) (k : TokenPairKey) : Nat :=
  ((alistLookup l k).getD []).length

/-- Sorted by `ev_score`, largest first. -/
def EvSortedDesc (l : List EnhancedArbitrageOpportunity) : Prop :=
  l.Pairwise (fun a b => b.ev_score ≤ a.ev_score)

/-- Inverse of the base58 alphabet (index of an ASCII code). -/
def alphaInv (c : Nat) : Nat :=
  b58Alphabet.indexOf c

/-- Base58 value of a digit string (most-significant first). -/
def b58Val (ds : List Nat) : Nat :=
  ds.foldl (fun acc d => acc * 58 + d) 0

/-! ## Concrete inputs used by counterexamples and witnesses -/

/-- A 32-byte key whose base58 string (31 ones then `"21"`) sorts *below*
that of `cexKeyB` although its bytes sort above. -/
def cexKeyA : Pubkey := List.replicate 31 0 ++ [58]

/-- A 32-byte key whose base58 string is 31 ones then `"3"`. -/
def cexKeyB : Pubkey := List.replicate 31 0 ++ [2]

/-- An untradable CPMM pool state: both reserves (and the liquidity) are
zero, and no trade has been observed. -/
def zeroReservePool : PoolState :=
  { pool_address := cexKeyA, dex_type := DexType.RaydiumCpmm
    token_a := cexKeyA, token_b := cexKeyB
    reserve_a := 0, reserve_b := 0, liquidity := 0, sqrt_price_x64 := none
    tick_current := none, active_bin_id := none, bin_step := none, total_fee_bps := 25
    last_updated := 0, last_trade_timestamp := none, volume_24h := none }

/-- A liquid CPMM buy-side pool (price 2 quote per base). -/
def evBuyPool : PoolState :=
  { pool_address := cexKeyA, dex_type := DexType.RaydiumCpmm
    token_a := cexKeyA, token_b := cexKeyB
    reserve_a := 1000000000000, reserve_b := 2000000000000, liquidity := 1000000000
    sqrt_price_x64 := none, tick_current := none, active_bin_id := none, bin_step := none
    total_fee_bps := 25, last_updated := 0, last_trade_timestamp := none, volume_24h := none }

/-- A liquid AMM-v4 sell-side pool (price 2.2 base per quote). -/
def evSellPool : PoolState :=
  { pool_address := cexKeyB, dex_type := DexType.RaydiumAmmV4
    token_a := cexKeyA, token_b := cexKeyB
    reserve_a := 2200000000000, reserve_b := 1000000000000, liquidity := 1000000000
    sqrt_price_x64 := none, tick_current := none, active_bin_id := none, bin_step := none
    total_fee_bps := 25, last_updated := 0, last_trade_timestamp := none, volume_24h := none }

/-- A detector with the constructor's default gas model. -/
def evDetector : EnhancedArbitrageDetector :=
  EnhancedArbitrageDetector.new [] (3/10) (1/2)

/-- The pair of the two concrete keys. -/
def evTokenPair : TokenPair :=
  TokenPair.new cexKeyA cexKeyB

/-- The candidate `evaluate_trade_size` produces from `evBuyPool`,
`evSellPool` and a trade of `10^9` base units (all fields written out). -/
def evOpp : EnhancedArbitrageOpportunity :=
  { token_pair := evTokenPair
    buy_pool := cexKeyA
    sell_pool := cexKeyB
    buy_dex := DexType.RaydiumCpmm
    sell_dex := DexType.RaydiumAmmV4
    buy_price := 199301197/100000000
    sell_price := 872997409/398602394
    gross_profit_pct := 672997409/2000000
    optimal_trade_size := 1000000000
    expected_input := 1000000000
    expected_output := 4364987045
    expected_profit := 3364987045
    total_fees := 7482529
    total_fee_pct := 299301197/400000000
    estimated_gas_lamports := 1020000
    net_profit := 3356484516
    net_profit_pct := 839121129/2500000
    buy_pool_impact_bps := 34
    sell_pool_impact_bps := 44
    buy_execution_prob := 23/25
    sell_execution_prob := 23/25
    combined_execution_prob := 529/625
    expected_value := 1775580308964/625
    ev_score := 4439394667487241/1562500000
    timestamp := 0
    confidence_level := ConfidenceLevel.VeryHigh }

/-- A CLMM-side pool price: price 1, 30 SOL of liquidity. -/
def flBuyPool : PoolPrice :=
  { pool := cexKeyA, protocol := PoolProtocol.RaydiumClmm, price := 1
    liquidity := 30000000000, token0 := cexKeyA, token1 := cexKeyB, timestamp := 0 }

/-- An AMM-side pool price: price 1.1, 40 SOL of liquidity. -/
def flSellPool : PoolPrice :=
  { pool := cexKeyB, protocol := PoolProtocol.RaydiumAmmV4, price := 11/10
    liquidity := 40000000000, token0 := cexKeyA, token1 := cexKeyB, timestamp := 0 }

/-- Like `flSellPool` but priced 1.005: a 0.5 % spread over `flBuyPool`. -/
def flNarrowPool : PoolPrice :=
  { pool := cexKeyB, protocol := PoolProtocol.RaydiumAmmV4, price := 1005/1000
    liquidity := 40000000000, token0 := cexKeyA, token1 := cexKeyB, timestamp := 0 }

/-- The detector with the documented high-liquidity defaults. -/
def flDetector : OpportunityDetector :=
  OpportunityDetector.new 1000000 100000000000 10000000000 50000000000

/-- A fresh, tight oracle record: price 1.0 (exponent 0), confidence
0.2 %, published 5 seconds before the clock reading `100`. -/
def oracleEx : PythPriceData :=
  { price := 1, confidence := 1/500, expo := 0, ema_price := 1, ema_confidence := 1/500
    publish_time := 95, last_updated := 95 }

/-- A candidate whose pool prices average 1.2 against that oracle. -/
def oracleOpp : EnhancedArbitrageOpportunity :=
  { evOpp with buy_price := 11/10, sell_price := 13/10 }

/-- The opportunity `calculate_profit` yields from `flBuyPool` and
`flSellPool` (loan `6·10^9`, profit `6·10^9 × (0.99500625·1.1 − 1.0009)`
= `561641250`). -/
def flOpp : ArbitrageOpportunity :=
  { pool_a := cexKeyA, pool_b := cexKeyB
    pool_a_protocol := PoolProtocol.RaydiumClmm
    pool_b_protocol := PoolProtocol.RaydiumAmmV4
    base_token := cexKeyA, quote_token := cexKeyB
    price_a := 1, price_b := 11/10
    expected_profit := 561641250, loan_amount := 6000000000
    timestamp := 0, confidence := 55 }

/-! ## Order and base58 lemmas -/

theorem strLt_asymm (a : List Nat) : ∀ b, strLt a b = true → strLt b a = false := by
  induction a with
  | nil =>
    intro b h
    cases b with
    | nil => simp [strLt] at h
    | cons y ys => simp [strLt]
  | cons x xs ih =>
    intro b h
    cases b with
    | nil => simp [strLt] at h
    | cons y ys =>
      simp only [strLt] at h ⊢
      by_cases hxy : x < y
      · have hyx : ¬ y < x := by omega
        simp [hxy, hyx]
      · by_cases hyx : y < x
        · simp [hxy, hyx] at h
        · simp only [if_neg hxy, if_neg hyx] at h
          simp only [if_neg hyx, if_neg hxy]
          exact ih ys h

theorem strLt_total_eq (a : List Nat) : ∀ b, strLt a b = false → strLt b a = false → a = b := by
  induction a with
  | nil =>
    intro b h1 _
    cases b with
    | nil => rfl
    | cons y ys => simp [strLt] at h1
  | cons x xs ih =>
    intro b h1 h2
    cases b with
    | nil => simp [strLt] at h2
    | cons y ys =>
      simp only [strLt] at h1 h2
      by_cases hxy : x < y
      · simp [hxy] at h1
      · by_cases hyx : y < x
        · simp [hyx] at h2
        · have hx : x = y := by omega
          simp only [if_neg hxy, if_neg hyx] at h1 h2
          rw [hx, ih ys h1 h2]

theorem foldl_mul_add (B : Nat) (l : List Nat) : ∀ acc : Nat,
    l.foldl (fun a b => a * B + b) acc =
      acc * B ^ l.length + l.foldl (fun a b => a * B + b) 0 := by
  induction l with
  | nil => intro acc; simp
  | cons x xs ih =>
    intro acc
    simp only [List.foldl_cons, List.length_cons]
    rw [ih (acc * B + x), ih (0 * B + x)]
    ring

theorem bytesToNat_cons (b : Nat) (bs : List Nat) :
    bytesToNat (b :: bs) = b * 256 ^ bs.length + bytesToNat bs := by
  unfold bytesToNat
  simp only [List.foldl_cons]
  rw [foldl_mul_add 256 bs (0 * 256 + b)]
  ring_nf

theorem bytesToNat_lt_pow (bs : List Nat) (h : ∀ x ∈ bs, x < 256) :
    bytesToNat bs < 256 ^ bs.length := by
  induction bs with
  | nil => simp [bytesToNat]
  | cons b rest ih =>
    have hb : b < 256 := h b (by simp)
    have hrest := ih (fun x hx => h x (by simp [hx]))
    rw [bytesToNat_cons]
    calc b * 256 ^ rest.length + bytesToNat rest
        < b * 256 ^ rest.length + 256 ^ rest.length := by omega
      _ = (b + 1) * 256 ^ rest.length := by ring
      _ ≤ 256 * 256 ^ rest.length := by
          exact Nat.mul_le_mul_right _ (by omega)
      _ = 256 ^ (b :: rest).length := by
          simp [List.length_cons, pow_succ]; ring

theorem bytesToNat_inj (a : List Nat) : ∀ b : List Nat, a.length = b.length →
    (∀ x ∈ a, x < 256) → (∀ x ∈ b, x < 256) → bytesToNat a = bytesToNat b → a = b := by
  induction a with
  | nil =>
    intro b hlen _ _ _
    cases b with
    | nil => rfl
    | cons y ys => simp at hlen
  | cons x xs ih =>
    intro b hlen ha hb hval
    cases b with
    | nil => simp at hlen
    | cons y ys =>
      simp only [List.length_cons, Nat.add_right_cancel_iff] at hlen
      rw [bytesToNat_cons, bytesToNat_cons, hlen] at hval
      have hxs := bytesToNat_lt_pow xs (fun z hz => ha z (by simp [hz]))
      have hys := bytesToNat_lt_pow ys (fun z hz => hb z (by simp [hz]))
      rw [hlen] at hxs
      have hxy : x = y := by
        rcases Nat.lt_trichotomy x y with hlt | heq | hgt
        · exfalso
          have h1 : (x + 1) * 256 ^ ys.length ≤ y * 256 ^ ys.length :=
            Nat.mul_le_mul_right _ (by omega)
          nlinarith
        · exact heq
        · exfalso
          have h1 : (y + 1) * 256 ^ ys.length ≤ x * 256 ^ ys.length :=
            Nat.mul_le_mul_right _ (by omega)
          nlinarith
      subst hxy
      have hrest : bytesToNat xs = bytesToNat ys := by omega
      rw [ih ys hlen (fun z hz => ha z (by simp [hz])) (fun z hz => hb z (by simp [hz])) hrest]

theorem natToB58_digit_lt : ∀ n : Nat, ∀ d ∈ natToB58 n, d < 58 := by
  intro n
  induction n using Nat.strong_induction_on with
  | _ n ih =>
    rw [natToB58]
    split
    · simp
    · rename_i hn
      intro d hd
      rw [List.mem_append] at hd
      rcases hd with h | h
      · exact ih (n / 58) (Nat.div_lt_self (Nat.pos_of_ne_zero hn) (by norm_num)) d h
      · simp only [List.mem_singleton] at h
        subst h
        exact Nat.mod_lt _ (by norm_num)

theorem b58Val_append_digit (ds : List Nat) (d : Nat) :
    b58Val (ds ++ [d]) = b58Val ds * 58 + d := by
  unfold b58Val
  rw [List.foldl_append]
  simp

theorem b58Val_natToB58 : ∀ n : Nat, b58Val (natToB58 n) = n := by
  intro n
  induction n using Nat.strong_induction_on with
  | _ n ih =>
    rw [natToB58]
    split
    · rename_i hn; simp [b58Val, hn]
    · rename_i hn
      rw [b58Val_append_digit,
        ih (n / 58) (Nat.div_lt_self (Nat.pos_of_ne_zero hn) (by norm_num))]
      omega

theorem b58Val_replicate_zeros (z : Nat) (ds : List Nat) :
    b58Val (List.replicate z 0 ++ ds) = b58Val ds := by
  induction z with
  | zero => simp
  | succ k ih =>
    rw [List.replicate_succ]
    simpa [b58Val] using ih

theorem alphaInv_alpha : ∀ i : Nat, i < 58 → alphaInv (b58Alphabet.getD i 0) = i := by
  decide

theorem pubkeyToBase58_inj (a b : Pubkey) (hlen : a.length = b.length)
    (ha : ∀ x ∈ a, x < 256) (hb : ∀ x ∈ b, x < 256)
    (h : pubkeyToBase58 a = pubkeyToBase58 b) : a = b := by
  unfold pubkeyToBase58 at h
  have inv : ∀ l : List Nat, (∀ x ∈ l, x < 58) →
      (l.map (fun i => b58Alphabet.getD i 0)).map alphaInv = l := by
    intro l hl
    rw [List.map_map]
    have : ∀ x ∈ l, (alphaInv ∘ fun i => b58Alphabet.getD i 0) x = id x := by
      intro x hx
      exact alphaInv_alpha x (hl x hx)
    rw [List.map_congr_left this, List.map_id]
  have bound : ∀ k : Pubkey, ∀ x ∈
      List.replicate (countLeadingZeroBytes k) 0 ++ natToB58 (bytesToNat k), x < 58 := by
    intro k x hx
    rw [List.mem_append] at hx
    rcases hx with h1 | h1
    · rw [List.eq_of_mem_replicate h1]; norm_num
    · exact natToB58_digit_lt _ x h1
  have h2 := congrArg (List.map alphaInv) h
  rw [inv _ (bound a), inv _ (bound b)] at h2
  have h3 := congrArg b58Val h2
  rw [b58Val_replicate_zeros, b58Val_replicate_zeros, b58Val_natToB58, b58Val_natToB58] at h3
  exact bytesToNat_inj a b hlen ha hb h3

/-! ## Claim C4 -/

/-- C4 counterexample: for the 32-byte keys `cexKeyA` (31 zero bytes then
58) and `cexKeyB` (31 zero bytes then 2), `enhanced_arbitrage.rs`'s
`TokenPair::new` picks `cexKeyA` as `base` (its base58 string
`"1...121"` sorts below `"1...13"`), although `cexKeyB` is the
byte-order-smaller key: the base is *not* the byte-order-smaller of the
two keys. -/
theorem token_pair_base58_order_cex :
    TokenPair.new cexKeyA cexKeyB = { base := cexKeyA, quote := cexKeyB } ∧
    pubkeyByteLt cexKeyB cexKeyA = true ∧ cexKeyA ≠ cexKeyB := by
  refine ⟨?_, by decide, by decide⟩
  have hA : bytesToNat cexKeyA = 58 := by decide
  have hB : bytesToNat cexKeyB = 2 := by decide
  have h58 : natToB58 58 = [1, 0] := by
    rw [natToB58]
    norm_num
    rw [natToB58]
    norm_num
    rw [natToB58]
    norm_num
  have h2 : natToB58 2 = [2] := by
    rw [natToB58]
    norm_num
    rw [natToB58]
    norm_num
  have hlt : pubkeyStrLt cexKeyA cexKeyB = true := by
    unfold pubkeyStrLt pubkeyToBase58
    rw [hA, hB, h58, h2]
    have hzA : countLeadingZeroBytes cexKeyA = 31 := by decide
    have hzB : countLeadingZeroBytes cexKeyB = 31 := by decide
    rw [hzA, hzB]
    decide
  unfold TokenPair.new
  rw [hlt]
  simp

/-- C4 amended: both `TokenPair::new` implementations are symmetric in
their arguments (for well-formed 32-byte keys), and the
`opportunity_detector.rs` one normalizes by *byte* order (its `token0` is
the byte-smaller key); the `enhanced_arbitrage.rs` one normalizes by
base58-*string* order, which can disagree with byte order
(equality/hashing being field-wise on the normalized forms in both).  -/
theorem token_pair_normalization_amended :
    (∀ a b : Pubkey, a.length = b.length → (∀ x ∈ a, x < 256) → (∀ x ∈ b, x < 256) →
      TokenPair.new a b = TokenPair.new b a ∧ FlTokenPair.new a b = FlTokenPair.new b a) ∧
    (∀ a b : Pubkey, a ≠ b →
      pubkeyByteLt (FlTokenPair.new a b).token0 (FlTokenPair.new a b).token1 = true) := by
  constructor
  · intro a b hlen ha hb
    constructor
    · unfold TokenPair.new
      rcases h1 : pubkeyStrLt a b with _ | _
      · rcases h2 : pubkeyStrLt b a with _ | _
        · have : a = b := by
            apply pubkeyToBase58_inj a b hlen ha hb
            exact strLt_total_eq _ _ h1 h2
          simp [this]
        · simp
      · have h2 : pubkeyStrLt b a = false := strLt_asymm _ _ h1
        simp [h2]
    · unfold FlTokenPair.new
      rcases h1 : pubkeyByteLt a b with _ | _
      · rcases h2 : pubkeyByteLt b a with _ | _
        · have : a = b := strLt_total_eq _ _ h1 h2
          simp [this]
        · simp
      · have h2 : pubkeyByteLt b a = false := strLt_asymm _ _ h1
        simp [h2]
  · intro a b hne
    unfold FlTokenPair.new
    rcases h1 : pubkeyByteLt a b with _ | _
    · have h2 : pubkeyByteLt b a = true := by
        rcases h2 : pubkeyByteLt b a with _ | _
        · exact absurd (strLt_total_eq _ _ h1 h2) hne
        · rfl
      simp [h2]
    · simp [h1]

/-- C4 witness: the amended theorem applied to two concrete 32-byte
keys. -/
theorem token_pair_normalization_witness :
    TokenPair.new cexKeyA cexKeyB = TokenPair.new cexKeyB cexKeyA ∧
    FlTokenPair.new cexKeyA cexKeyB = FlTokenPair.new cexKeyB cexKeyA ∧
    pubkeyByteLt (FlTokenPair.new cexKeyA cexKeyB).token0
      (FlTokenPair.new cexKeyA cexKeyB).token1 = true := by
  refine ⟨?_, ?_, ?_⟩
  · exact (token_pair_normalization_amended.1 cexKeyA cexKeyB (by decide)
      (by decide) (by decide)).1
  · exact (token_pair_normalization_amended.1 cexKeyA cexKeyB (by decide)
      (by decide) (by decide)).2
  · exact token_pair_normalization_amended.2 cexKeyA cexKeyB (by decide)

/-! ## Claim C1 -/

theorem impactScore_bounds (i : Nat) : 1/10 ≤ impactScore i ∧ impactScore i ≤ 1 := by
  unfold impactScore
  split_ifs <;> norm_num

theorem liquidityScore_bounds (l : Nat) : 3/10 ≤ liquidityScore l ∧ liquidityScore l ≤ 1 := by
  unfold liquidityScore
  split_ifs <;> norm_num

theorem recencyScore_bounds (t : Option Nat) (now : Nat) :
    1/2 ≤ recencyScore t now ∧ recencyScore t now ≤ 1 := by
  cases t with
  | none => norm_num [recencyScore]
  | some lt =>
    simp only [recencyScore]
    split_ifs <;> norm_num

/-- C1 counterexample: for a CPMM pool whose input-side reserve is zero
(no liquidity, no recorded trade), `execution_probability` returns
`0.26`, not `0` — and `0.26` is not of the form `exp(−5·size_ratio)`
clamped, which the claim says should be `0` here. -/
theorem execution_probability_zero_reserve_cex :
    zeroReservePool.reserve_a = 0 ∧ zeroReservePool.reserve_b = 0 ∧
    zeroReservePool.dex_type = DexType.RaydiumCpmm ∧
    zeroReservePool.execution_probability 1000 true 0 = 13/50 ∧ (13/50 : ℚ) ≠ 0 := by
  refine ⟨rfl, rfl, rfl, ?_, by norm_num⟩
  norm_num [PoolState.execution_probability, PoolState.calculate_price_impact,
    PoolState.calculate_cpmm_impact, impactScore, liquidityScore, recencyScore,
    zeroReservePool]

/-- C1 amended: `execution_probability` is not the exponential
`exp(−5·size_ratio)`; it is the weighted step score
`0.5·impact_score + 0.3·liquidity_score + 0.2·recency_score`, which
always lies in `[0.24, 1]` — so it is clamped to `[0, 1]` but is never
`0`, in particular not when the input-side reserve is zero. -/
theorem execution_probability_weighted_bounds :
    ∀ (p : PoolState) (trade_size : Nat) (is_a_to_b : Bool) (now : Nat),
      6/25 ≤ p.execution_probability trade_size is_a_to_b now ∧
        p.execution_probability trade_size is_a_to_b now ≤ 1 := by
  intro p trade_size is_a_to_b now
  unfold PoolState.execution_probability
  obtain ⟨i1, i2⟩ := impactScore_bounds (p.calculate_price_impact trade_size is_a_to_b).2
  obtain ⟨l1, l2⟩ := liquidityScore_bounds p.liquidity
  obtain ⟨r1, r2⟩ := recencyScore_bounds p.last_trade_timestamp now
  constructor <;> linarith

/-! ## Claim C5 -/

theorem impact_cast_eq (spot exec : ℚ) (hspot : 0 < spot) (hexec0 : 0 ≤ exec)
    (hle : exec ≤ spot) :
    fCastNat (2 ^ 16 - 1) (|(spot - exec) / spot| * 10000) =
      (⌊|spot - exec| / spot * 10000⌋).toNat := by
  have h1 : |(spot - exec) / spot| = |spot - exec| / spot := by
    rw [abs_div, abs_of_pos hspot]
  rw [h1]
  unfold fCastNat
  apply min_eq_left
  have habs : |spot - exec| = spot - exec := abs_of_nonneg (by linarith)
  have hv : |spot - exec| / spot * 10000 ≤ 10000 := by
    rw [habs]
    have h2 : (spot - exec) / spot ≤ 1 := by
      rw [div_le_one hspot]; linarith
    nlinarith
  have h3 : ⌊|spot - exec| / spot * 10000⌋ ≤ (10000 : ℤ) := by
    have := Int.floor_le_floor hv
    simpa using this
  have h4 : ⌊|spot - exec| / spot * 10000⌋.toNat ≤ 10000 := Int.toNat_le.mpr (by exact_mod_cast h3)
  omega

/-- C5: for a CPMM pool with positive reserves, fee below 100 % and a
positive trade, `calculate_cpmm_impact` returns exactly the spec's
quote: `y = ⌊R_out·x′/(R_in+x′)⌋` with `x′ = ⌊x·(10000−fee)/10000⌋`,
paired with `⌊|spot − execution|/spot × 10000⌋` basis points; and when
either reserve is zero it returns `(0, 10000)`.  (`rout < 2^64` is the
`u64` width of the reserve field.) -/
theorem cpmm_quote_correct :
    (∀ (p : PoolState) (x rin rout : Nat), 0 < x → 0 < rin → 0 < rout →
      p.total_fee_bps < 10000 → rout < 2 ^ 64 →
      p.calculate_cpmm_impact x rin rout = cpmm_quote_spec p.total_fee_bps x rin rout) ∧
    (∀ (p : PoolState) (x rin rout : Nat), rin = 0 ∨ rout = 0 →
      p.calculate_cpmm_impact x rin rout = (0, 10000)) := by
  constructor
  · intro p x rin rout hx hrin hrout hfee hrout64
    have hne : ¬(rin = 0 ∨ rout = 0) := by omega
    have hxz : ¬ x = 0 := by omega
    simp only [PoolState.calculate_cpmm_impact, cpmm_quote_spec, if_neg hne, if_neg hxz]
    have hxf_le : x * (10000 - p.total_fee_bps) / 10000 ≤ x := by
      calc x * (10000 - p.total_fee_bps) / 10000
          ≤ x * 10000 / 10000 := Nat.div_le_div_right (Nat.mul_le_mul_left _ (by omega))
        _ = x := Nat.mul_div_cancel _ (by norm_num)
    set xf := x * (10000 - p.total_fee_bps) / 10000 with hxf
    set y := rout * xf / (rin + xf) with hy
    have hyle : y ≤ rout := Nat.div_le_of_le_mul (by nlinarith)
    have hymod : y % 2 ^ 64 = y := Nat.mod_eq_of_lt (lt_of_le_of_lt hyle hrout64)
    rw [hymod]
    have hyrin : y * rin ≤ rout * x := by
      have h1 : y * (rin + xf) ≤ rout * xf := Nat.div_mul_le_self _ _
      have h2 : y * rin ≤ y * (rin + xf) := Nat.mul_le_mul_left _ (by omega)
      have h3 : rout * xf ≤ rout * x := Nat.mul_le_mul_left _ hxf_le
      omega
    have hspot : (0 : ℚ) < (rout : ℚ) / (rin : ℚ) := by positivity
    have hexec0 : (0 : ℚ) ≤ (y : ℚ) / (x : ℚ) := by positivity
    have hle : (y : ℚ) / (x : ℚ) ≤ (rout : ℚ) / (rin : ℚ) := by
      rw [div_le_div_iff (by positivity) (by positivity)]
      exact_mod_cast hyrin
    rw [impact_cast_eq _ _ hspot hexec0 hle]
  · intro p x rin rout h
    simp only [PoolState.calculate_cpmm_impact, if_pos h]

/-- C5 witness: the quote of a 0.25 %-fee CPMM pool with reserves
`(10^12, 2·10^12)` on a `10^9` trade, evaluated on both sides. -/
theorem cpmm_quote_correct_witness :
    evBuyPool.calculate_cpmm_impact 1000000000 1000000000000 2000000000000 =
      cpmm_quote_spec 25 1000000000 1000000000000 2000000000000 ∧
    cpmm_quote_spec 25 1000000000 1000000000000 2000000000000 = (1993011970, 34) ∧
    evBuyPool.calculate_cpmm_impact 0 0 2000000000000 = (0, 10000) := by
  refine ⟨?_, ?_, ?_⟩
  · have h := cpmm_quote_correct.1 evBuyPool 1000000000 1000000000000 2000000000000
      (by norm_num) (by norm_num) (by norm_num) (by norm_num [evBuyPool]) (by norm_num)
    simpa [evBuyPool] using h
  · norm_num [cpmm_quote_spec]
    rw [abs_of_nonneg (by norm_num : (0 : ℚ) ≤ 698803 / 100000000)]
    norm_num
    rfl
  · exact cpmm_quote_correct.2 evBuyPool 0 0 2000000000000 (Or.inl rfl)

/-! ## Claim C10 -/

/-- C10: `calculate_optimal_loan_size` clamps below by `100_000` *after*
clamping above by `max_loan_amount`, so the result is always at least
`100_000` — and strictly exceeds any configured maximum below
`100_000`. -/
theorem optimal_loan_clamp_order :
    (∀ (d : OpportunityDetector) (b s : PoolPrice),
      100000 ≤ d.calculate_optimal_loan_size b s) ∧
    (∀ (d : OpportunityDetector) (b s : PoolPrice), d.max_loan_amount < 100000 →
      d.max_loan_amount < d.calculate_optimal_loan_size b s) := by
  constructor
  · intro d b s
    exact le_max_right _ _
  · intro d b s h
    exact lt_of_lt_of_le h (le_max_right _ _)

/-- C10 witness: the clamp theorem at the high-liquidity defaults (loan
`6·10^9`) and at a detector configured with `max_loan_amount = 5`. -/
theorem optimal_loan_clamp_order_witness :
    100000 ≤ flDetector.calculate_optimal_loan_size flBuyPool flSellPool ∧
    flDetector.calculate_optimal_loan_size flBuyPool flSellPool = 6000000000 ∧
    (OpportunityDetector.new 0 5 0 0).max_loan_amount < 100000 ∧
    (OpportunityDetector.new 0 5 0 0).max_loan_amount <
      (OpportunityDetector.new 0 5 0 0).calculate_optimal_loan_size flBuyPool flSellPool := by
  refine ⟨optimal_loan_clamp_order.1 flDetector flBuyPool flSellPool, ?_,
    by norm_num [OpportunityDetector.new],
    optimal_loan_clamp_order.2 (OpportunityDetector.new 0 5 0 0) flBuyPool flSellPool
      (by norm_num [OpportunityDetector.new])⟩
  norm_num [OpportunityDetector.calculate_optimal_loan_size, flDetector, flBuyPool,
    flSellPool, OpportunityDetector.new]

/-! ## Claim C9 -/

/-- C9: whatever the configured thresholds, `calculate_profit` emits
nothing when the relative spread `(sell − buy)/buy` is below 1 % — the
1 % floor is hard-coded ahead of the loan-size and fee computation. -/
theorem spread_floor_gate :
    ∀ (d : OpportunityDetector) (b s : PoolPrice) (now : Int),
      (s.price - b.price) / b.price < 1/100 → d.calculate_profit b s now = none := by
  intro d b s now h
  simp only [OpportunityDetector.calculate_profit]
  by_cases h1 : b.price ≤ 0 ∨ s.price ≤ 0
  · rw [if_pos h1]
  · rw [if_neg h1]
    push_neg at h1
    by_cases h2 : s.price - b.price ≤ 0
    · rw [if_pos h2]
    · rw [if_neg h2, if_pos h]

/-- C9 witness: a 0.5 % spread (prices 1 and 1.005) is rejected under the
documented high-liquidity configuration. -/
theorem spread_floor_gate_witness :
    (flNarrowPool.price - flBuyPool.price) / flBuyPool.price = 1/200 ∧
    flDetector.calculate_profit flBuyPool flNarrowPool 0 = none := by
  refine ⟨by norm_num [flBuyPool, flNarrowPool], ?_⟩
  exact spread_floor_gate flDetector flBuyPool flNarrowPool 0
    (by norm_num [flBuyPool, flNarrowPool])

/-! ## Claim C7 -/

theorem flprofit_eval (d : OpportunityDetector) (hm : 6000000000 ≤ d.max_loan_amount) :
    d.calculate_profit flBuyPool flSellPool 0 = some flOpp := by
  have hmin : min 6000000000 d.max_loan_amount = 6000000000 := min_eq_left hm
  norm_num [OpportunityDetector.calculate_profit,
    OpportunityDetector.calculate_optimal_loan_size,
    OpportunityDetector.calculate_confidence, fCastNat, flBuyPool, flSellPool, flOpp, hmin]
  rfl

/-- C7 counterexample: two detectors differing in every configuration
field produce the same opportunity on the same pools, and its profit is
the flash-rate-0.0009 closed form, not the flash-rate-0 form the spec
says a configuration could select: the flash-loan rate is a hard-coded
constant, not a configuration parameter. -/
theorem flash_rate_not_configurable_cex :
    (OpportunityDetector.new 1 1000000000000000 2 3).min_profit_threshold ≠
      (OpportunityDetector.new 999 100000000000000 888 777).min_profit_threshold ∧
    (OpportunityDetector.new 1 1000000000000000 2 3).max_loan_amount ≠
      (OpportunityDetector.new 999 100000000000000 888 777).max_loan_amount ∧
    (OpportunityDetector.new 1 1000000000000000 2 3).min_liquidity_threshold ≠
      (OpportunityDetector.new 999 100000000000000 888 777).min_liquidity_threshold ∧
    (OpportunityDetector.new 1 1000000000000000 2 3).min_combined_liquidity ≠
      (OpportunityDetector.new 999 100000000000000 888 777).min_combined_liquidity ∧
    (OpportunityDetector.new 1 1000000000000000 2 3).calculate_profit flBuyPool flSellPool 0 =
      (OpportunityDetector.new 999 100000000000000 888 777).calculate_profit
        flBuyPool flSellPool 0 ∧
    ((OpportunityDetector.new 1 1000000000000000 2 3).calculate_profit
        flBuyPool flSellPool 0).map ArbitrageOpportunity.expected_profit =
      some (fCastNat (2 ^ 64 - 1)
        (flash_net_spec (9/10000) (25/10000) (25/10000) 6000000000 1 (11/10))) ∧
    ((OpportunityDetector.new 1 1000000000000000 2 3).calculate_profit
        flBuyPool flSellPool 0).map ArbitrageOpportunity.expected_profit ≠
      some (fCastNat (2 ^ 64 - 1)
        (flash_net_spec 0 (25/10000) (25/10000) 6000000000 1 (11/10))) := by
  have h1 := flprofit_eval (OpportunityDetector.new 1 1000000000000000 2 3)
    (by norm_num [OpportunityDetector.new])
  have h2 := flprofit_eval (OpportunityDetector.new 999 100000000000000 888 777)
    (by norm_num [OpportunityDetector.new])
  refine ⟨by norm_num [OpportunityDetector.new], by norm_num [OpportunityDetector.new],
    by norm_num [OpportunityDetector.new], by norm_num [OpportunityDetector.new],
    by rw [h1, h2], ?_, ?_⟩
  · rw [h1]
    norm_num [flOpp, flash_net_spec, fCastNat]
    decide
  · rw [h1]
    norm_num [flOpp, flash_net_spec, fCastNat]
    decide

/-- C7 amended: whenever `calculate_profit` emits an opportunity, its
loan is `calculate_optimal_loan_size`, the post-fee quote strictly
exceeds the repayment `L·(1 + 0.0009)` (nothing is emitted otherwise),
and the recorded profit is the §4.3 closed form at the *hard-coded*
flash rate 0.0009 and swap fees 0.0025 — and `calculate_profit` depends
on the configuration only through `max_loan_amount`: no configuration
field (let alone a flash-rate parameter) can alter the 9 bps rate. -/
theorem calculate_profit_formula_amended :
    (∀ (d : OpportunityDetector) (b s : PoolPrice) (now : Int) (opp : ArbitrageOpportunity),
      d.calculate_profit b s now = some opp →
        opp.loan_amount = d.calculate_optimal_loan_size b s ∧
        (opp.loan_amount : ℚ) * (1 + 9/10000) <
          (opp.loan_amount : ℚ) * ((1 - 25/10000) * (1 - 25/10000)) * (s.price / b.price) ∧
        opp.expected_profit = fCastNat (2 ^ 64 - 1)
          (flash_net_spec (9/10000) (25/10000) (25/10000) opp.loan_amount b.price s.price)) ∧
    (∀ (d1 d2 : OpportunityDetector) (b s : PoolPrice) (now : Int),
      d1.max_loan_amount = d2.max_loan_amount →
      d1.calculate_profit b s now = d2.calculate_profit b s now) := by
  constructor
  · intro d b s now opp h
    simp only [OpportunityDetector.calculate_profit] at h
    split_ifs at h with h1 h2 h3 h4 h5
    rw [Option.some.injEq] at h
    subst h
    push_neg at h5
    exact ⟨rfl, h5, by unfold flash_net_spec; norm_num⟩
  · intro d1 d2 b s now hml
    have hloan : d1.calculate_optimal_loan_size b s = d2.calculate_optimal_loan_size b s := by
      unfold OpportunityDetector.calculate_optimal_loan_size
      rw [hml]
    simp only [OpportunityDetector.calculate_profit, hloan]

/-- C7 witness: the amended theorem at the concrete pools priced 1 and
1.1 with 30 and 40 SOL of liquidity, under the high-liquidity default
configuration. -/
theorem calculate_profit_formula_amended_witness :
    flDetector.calculate_profit flBuyPool flSellPool 0 = some flOpp ∧
    flOpp.loan_amount = flDetector.calculate_optimal_loan_size flBuyPool flSellPool ∧
    (flOpp.loan_amount : ℚ) * (1 + 9/10000) <
      (flOpp.loan_amount : ℚ) * ((1 - 25/10000) * (1 - 25/10000)) *
        (flSellPool.price / flBuyPool.price) ∧
    flOpp.expected_profit = fCastNat (2 ^ 64 - 1)
      (flash_net_spec (9/10000) (25/10000) (25/10000) flOpp.loan_amount
        flBuyPool.price flSellPool.price) := by
  have h : flDetector.calculate_profit flBuyPool flSellPool 0 = some flOpp :=
    flprofit_eval flDetector (by norm_num [flDetector, OpportunityDetector.new])
  obtain ⟨h1, h2, h3⟩ :=
    calculate_profit_formula_amended.1 flDetector flBuyPool flSellPool 0 flOpp h
  exact ⟨h, h1, h2, h3⟩

/-! ## Claim C3 -/

theorem alistLookup_map_replace {κ ν : Type} [DecidableEq κ] (k : κ) (v : ν) :
    ∀ l : List (κ × ν), l.any (fun p => p.1 = k) = true →
      alistLookup (l.map (fun p => if p.1 = k then (k, v) else p)) k = some v := by
  intro l
  induction l with
  | nil => simp
  | cons p rest ih =>
    intro hany
    by_cases hp : p.1 = k
    · simp [alistLookup, hp]
    · simp only [List.any_cons, hp, decide_eq_true_eq, false_or, Bool.false_or] at hany
      simp only [List.map_cons, if_neg hp, alistLookup, List.find?_cons]
      rw [decide_eq_false hp]
      exact ih hany

theorem alistLookup_append_last {κ ν : Type} [DecidableEq κ] (k : κ) (v : ν) :
    ∀ l : List (κ × ν), l.any (fun p => p.1 = k) = false →
      alistLookup (l ++ [(k, v)]) k = some v := by
  intro l
  induction l with
  | nil => simp [alistLookup]
  | cons p rest ih =>
    intro hany
    simp only [List.any_cons, Bool.or_eq_false_iff, decide_eq_false_iff_not] at hany
    simp only [List.cons_append, alistLookup, List.find?_cons]
    rw [decide_eq_false hany.1]
    exact ih hany.2

theorem alistLookup_insert_self {κ ν : Type} [DecidableEq κ] (l : List (κ × ν))
    (k : κ) (v : ν) : alistLookup (alistInsert l k v) k = some v := by
  unfold alistInsert
  split_ifs with hany
  · exact alistLookup_map_replace k v l hany
  · rw [Bool.not_eq_true] at hany
    exact alistLookup_append_last k v l hany

theorem pairIndexPush_lookup (k : TokenPairKey) (addr : Pubkey) :
    ∀ l : List (TokenPairKey × List Pubkey),
      alistLookup (pairIndexPush l k addr) k =
        some (((alistLookup l k).getD []) ++ [addr]) := by
  intro l
  unfold pairIndexPush
  split_ifs with hany
  · induction l with
    | nil => simp at hany
    | cons p rest ih =>
      by_cases hp : p.1 = k
      · obtain ⟨p1, p2⟩ := p
        simp only at hp
        subst hp
        simp [alistLookup]
      · simp only [List.any_cons, hp, decide_eq_true_eq, false_or, Bool.false_or] at hany
        simp only [List.map_cons, if_neg hp, alistLookup, List.find?_cons]
        rw [decide_eq_false hp]
        have := ih hany
        simpa [alistLookup] using this
  · rw [Bool.not_eq_true] at hany
    have hnone : alistLookup l k = none := by
      unfold alistLookup
      have hfind : l.find? (fun p => p.1 = k) = none := by
        rw [List.find?_eq_none]
        intro x hx hsat
        have hanyT : l.any (fun p => p.1 = k) = true := List.any_eq_true.mpr ⟨x, hx, hsat⟩
        rw [hanyT] at hany
        exact absurd hany (by simp)
      rw [hfind]
      rfl
    rw [hnone]
    simpa using alistLookup_append_last k [addr] l hany

theorem replaceFirstPool_map_pool (pp : PoolPrice) :
    ∀ l : List PoolPrice, (replaceFirstPool l pp).map PoolPrice.pool = l.map PoolPrice.pool := by
  intro l
  induction l with
  | nil => rfl
  | cons p rest ih =>
    unfold replaceFirstPool
    by_cases hp : p.pool = pp.pool
    · simp [hp]
    · simp [hp, ih]

theorem touchPrices_nodup (prices : List PoolPrice) (pp : PoolPrice) (now : Int)
    (hnd : (prices.map PoolPrice.pool).Nodup) :
    ((touchPrices prices pp now).map PoolPrice.pool).Nodup := by
  unfold touchPrices
  have hbase : (((if prices.any (fun p => p.pool = pp.pool) then
      replaceFirstPool prices pp else prices ++ [pp]).map PoolPrice.pool)).Nodup := by
    split_ifs with hany
    · rw [replaceFirstPool_map_pool]
      exact hnd
    · rw [List.map_append, List.nodup_append]
      refine ⟨hnd, by simp, ?_⟩
      intro x hx
      simp only [List.mem_map] at hx
      obtain ⟨p, hp, hpx⟩ := hx
      simp only [List.map_cons, List.map_nil, List.mem_singleton]
      intro hc
      have hanyT : prices.any (fun q => q.pool = pp.pool) = true :=
        List.any_eq_true.mpr ⟨p, hp, decide_eq_true (hpx.trans hc)⟩
      rw [hanyT] at hany
      exact absurd hany (by simp)
  exact List.Nodup.sublist (List.Sublist.map _ (List.filter_sublist _)) hbase

theorem update_price_feed_nodup (d : OpportunityDetector) (pair : FlTokenPair)
    (pool : Pubkey) (price : ℚ) (liq : Nat) (t0 t1 : Pubkey) (proto : PoolProtocol)
    (now : Int) (h : FeedNodup d.price_feed) :
    FeedNodup (d.update_price_feed pair pool price liq t0 t1 proto now).price_feed := by
  simp only [OpportunityDetector.update_price_feed, FeedNodup]
  by_cases hany : (d.price_feed.any (fun e => e.1 = pair)) = true
  · rw [if_pos hany]
    intro e he
    simp only [List.mem_map] at he
    obtain ⟨e0, he0, hee⟩ := he
    by_cases hp : e0.1 = pair
    · rw [← hee]
      simp only [if_pos hp]
      exact touchPrices_nodup e0.2 _ now (h e0 he0)
    · rw [← hee]
      simp only [if_neg hp]
      exact h e0 he0
  · rw [if_neg hany]
    intro e he
    rw [List.mem_append] at he
    rcases he with he | he
    · exact h e he
    · simp only [List.mem_singleton] at he
      subst he
      exact touchPrices_nodup [] _ now (by simp)

/-- C3 counterexample: `LiquidityMonitor::update_pool` accepts an
untradable CPMM state (zero reserves): upserting it into an empty store
inserts it — the store is not left identical to its pre-call state. -/
theorem update_pool_untradable_not_noop :
    zeroReservePool.reserve_a = 0 ∧ zeroReservePool.dex_type = DexType.RaydiumCpmm ∧
    alistLookup ((LiquidityMonitor.new 60).update_pool zeroReservePool).pools
      zeroReservePool.pool_address = some zeroReservePool ∧
    alistLookup (LiquidityMonitor.new 60).pools zeroReservePool.pool_address = none := by
  refine ⟨rfl, rfl, ?_, by simp [LiquidityMonitor.new, alistLookup]⟩
  simp only [LiquidityMonitor.update_pool]
  exact alistLookup_insert_self _ _ _

/-- C3 amended: the flash-loan detector's `update_clmm_pool_state` is the
upsert that rejects untradable CL states (zero square-root price or zero
liquidity) as a strict no-op and never duplicates a pool in the per-pair
price feed; the liquidity monitor's `update_pool`, in contrast, performs
no tradability validation (it stores every state, untradable CPMM states
included) and appends the pool id to the token-pair index on *every*
call, so repeated upserts do add duplicate index entries there. -/
theorem upsert_validation_amended :
    (∀ (d : OpportunityDetector) (ev : ClmmPoolStateAccountEvent) (now : Int),
      ev.pool_state.sqrt_price_x64 = 0 ∨ ev.pool_state.liquidity = 0 →
      d.update_clmm_pool_state ev now = d) ∧
    (∀ (d : OpportunityDetector) (ev : ClmmPoolStateAccountEvent) (now : Int),
      FeedNodup d.price_feed →
      FeedNodup (d.update_clmm_pool_state ev now).price_feed) ∧
    (∀ (m : LiquidityMonitor) (ps : PoolState),
      alistLookup (m.update_pool ps).pools ps.pool_address = some ps) ∧
    (∀ (m : LiquidityMonitor) (ps : PoolState),
      pairIndexCount (m.update_pool ps).token_pair_pools
          (TokenPairKey.new ps.token_a ps.token_b) =
        pairIndexCount m.token_pair_pools (TokenPairKey.new ps.token_a ps.token_b) + 1) := by
  refine ⟨?_, ?_, ?_, ?_⟩
  · intro d ev now h
    simp only [OpportunityDetector.update_clmm_pool_state]
    rw [if_pos h]
  · intro d ev now h
    simp only [OpportunityDetector.update_clmm_pool_state]
    split_ifs with huntradable
    · exact h
    · cases hp : OpportunityDetector.calculate_clmm_price ev.pool_state with
      | none => simpa using h
      | some price => exact update_price_feed_nodup _ _ _ _ _ _ _ _ _ (by simpa using h)
  · intro m ps
    simp only [LiquidityMonitor.update_pool]
    exact alistLookup_insert_self _ _ _
  · intro m ps
    simp only [LiquidityMonitor.update_pool, pairIndexCount]
    rw [pairIndexPush_lookup]
    simp

/-- C3 witness: the amended theorem at concrete inputs — a zero-√price
CLMM event is a no-op on the default detector, its feed stays duplicate
free, and the untradable `zeroReservePool` is nevertheless stored by
`update_pool` with its pair-index entry count bumped from 0 to 1. -/
theorem upsert_validation_amended_witness :
    OpportunityDetector.new_high_liquidity.update_clmm_pool_state
      { pubkey := cexKeyA, pool_state :=
        { sqrt_price_x64 := 0, liquidity := 5, token_mint0 := cexKeyA, token_mint1 := cexKeyB } }
      0 = OpportunityDetector.new_high_liquidity ∧
    FeedNodup (OpportunityDetector.new_high_liquidity.update_clmm_pool_state
      { pubkey := cexKeyA, pool_state :=
        { sqrt_price_x64 := 1, liquidity := 5, token_mint0 := cexKeyA, token_mint1 := cexKeyB } }
      0).price_feed ∧
    alistLookup ((LiquidityMonitor.new 60).update_pool zeroReservePool).pools
      zeroReservePool.pool_address = some zeroReservePool ∧
    pairIndexCount ((LiquidityMonitor.new 60).update_pool zeroReservePool).token_pair_pools
        (TokenPairKey.new zeroReservePool.token_a zeroReservePool.token_b) =
      pairIndexCount (LiquidityMonitor.new 60).token_pair_pools
        (TokenPairKey.new zeroReservePool.token_a zeroReservePool.token_b) + 1 := by
  refine ⟨?_, ?_, ?_, ?_⟩
  · exact upsert_validation_amended.1 _ _ 0 (Or.inl rfl)
  · exact upsert_validation_amended.2.1 _ _ 0
      (by simp [FeedNodup, OpportunityDetector.new_high_liquidity, OpportunityDetector.new])
  · exact upsert_validation_amended.2.2.1 _ _
  · exact upsert_validation_amended.2.2.2 _ _

/-! ## Claim C8 -/

theorem evDescBool_trans (a b c : EnhancedArbitrageOpportunity)
    (h1 : evDescBool a b = true) (h2 : evDescBool b c = true) : evDescBool a c = true := by
  simp only [evDescBool, decide_eq_true_eq] at *
  exact le_trans h2 h1

theorem evDescBool_total (a b : EnhancedArbitrageOpportunity) :
    (evDescBool a b || evDescBool b a) = true := by
  simp only [evDescBool, Bool.or_eq_true, decide_eq_true_eq]
  exact le_total b.ev_score a.ev_score

/-- C8: with the constructor's `max_opportunities = 100`, every scan pass
leaves the stored collection with at most 100 opportunities sorted by
`ev_score` descending, and both read paths (`get_opportunities`,
`get_top_opportunities`) observe only such capped, descending-ordered
collections (the scan's return value being the stored list itself). -/
theorem ranker_capped_sorted :
    ∀ (d : EnhancedArbitrageDetector) (now : Nat), d.max_opportunities = 100 →
      ((d.scan_arbitrage_opportunities now).1.opportunities.length ≤ 100 ∧
        EvSortedDesc (d.scan_arbitrage_opportunities now).1.opportunities) ∧
      (((d.scan_arbitrage_opportunities now).1.get_opportunities.length ≤ 100 ∧
        EvSortedDesc ((d.scan_arbitrage_opportunities now).1.get_opportunities))) ∧
      (∀ n, ((d.scan_arbitrage_opportunities now).1.get_top_opportunities n).length ≤ 100 ∧
        EvSortedDesc ((d.scan_arbitrage_opportunities now).1.get_top_opportunities n)) ∧
      (d.scan_arbitrage_opportunities now).2 =
        (d.scan_arbitrage_opportunities now).1.opportunities := by
  intro d now hmax
  have hstore : (d.scan_arbitrage_opportunities now).1.opportunities =
      ((d.monitored_pairs.flatMap
        (fun pc => d.find_opportunities_for_pair pc now)).mergeSort evDescBool).take 100 := by
    simp only [EnhancedArbitrageDetector.scan_arbitrage_opportunities, hmax]
  have hsorted : EvSortedDesc ((d.monitored_pairs.flatMap
      (fun pc => d.find_opportunities_for_pair pc now)).mergeSort evDescBool) := by
    have h := List.sorted_mergeSort
      (fun a b c => evDescBool_trans a b c) evDescBool_total
      (d.monitored_pairs.flatMap (fun pc => d.find_opportunities_for_pair pc now))
    exact h.imp (fun hab => by simpa [evDescBool] using hab)
  have hlen : (d.scan_arbitrage_opportunities now).1.opportunities.length ≤ 100 := by
    rw [hstore, List.length_take]
    exact min_le_left _ _
  have hsortstore : EvSortedDesc (d.scan_arbitrage_opportunities now).1.opportunities := by
    rw [hstore]
    exact List.Pairwise.sublist (List.take_sublist _ _) hsorted
  refine ⟨⟨hlen, hsortstore⟩, ⟨hlen, hsortstore⟩, ?_, ?_⟩
  · intro n
    simp only [EnhancedArbitrageDetector.get_top_opportunities]
    constructor
    · rw [List.length_take]
      exact le_trans (min_le_right _ _) hlen
    · exact List.Pairwise.sublist (List.take_sublist _ _) hsortstore
  · simp only [EnhancedArbitrageDetector.scan_arbitrage_opportunities]

/-- C8 witness: the invariant at a concretely constructed detector. -/
theorem ranker_capped_sorted_witness :
    ((EnhancedArbitrageDetector.new [] 0 0).scan_arbitrage_opportunities 0).1.opportunities.length
      ≤ 100 ∧
    EvSortedDesc ((EnhancedArbitrageDetector.new [] 0 0).scan_arbitrage_opportunities
      0).1.opportunities ∧
    (((EnhancedArbitrageDetector.new [] 0 0).scan_arbitrage_opportunities
      0).1.get_top_opportunities 5).length ≤ 100 :=
  ⟨(ranker_capped_sorted (EnhancedArbitrageDetector.new [] 0 0) 0 rfl).1.1,
   (ranker_capped_sorted (EnhancedArbitrageDetector.new [] 0 0) 0 rfl).1.2,
   ((ranker_capped_sorted (EnhancedArbitrageDetector.new [] 0 0) 0 rfl).2.2.1 5).1⟩

/-! ## Claim C6 -/

/-- C6: `validate_opportunity` is a pure function of the configuration,
the oracle snapshot, the clock and the candidate, applying its gates in
source order — absent feed, staleness, confidence width, average-pool
price deviation (`|avg − oracle|/oracle × 100` with
`avg = (buy + sell)/2`), then per-leg deviation when both-legs checking
is on — and returns the first failing gate as the reason; under the
balanced (default, 5 %) preset a fresh, tight-confidence candidate with
average pool price 1.2 against oracle price 1.0 is rejected for price
deviation (20 %). -/
theorem oracle_validator_gates :
    (∀ (cfg : OracleValidationConfig) (now : Nat) (opp : EnhancedArbitrageOpportunity),
      validate_opportunity cfg none now opp = ValidationResult.invalid VReason.noOracle) ∧
    (∀ (cfg : OracleValidationConfig) (d : PythPriceData) (now : Nat)
        (opp : EnhancedArbitrageOpportunity),
      d.is_fresh now cfg.max_staleness_secs = false →
      validate_opportunity cfg (some d) now opp =
        ValidationResult.invalid VReason.staleOracle) ∧
    (∀ (cfg : OracleValidationConfig) (d : PythPriceData) (now : Nat)
        (opp : EnhancedArbitrageOpportunity),
      d.is_fresh now cfg.max_staleness_secs = true →
      cfg.max_oracle_confidence_pct < d.confidence_pct →
      validate_opportunity cfg (some d) now opp =
        ValidationResult.with_metrics false VReason.wideConfidence d.normalized_price 0 0
          d.confidence_pct) ∧
    (∀ (cfg : OracleValidationConfig) (d : PythPriceData) (now : Nat)
        (opp : EnhancedArbitrageOpportunity),
      d.is_fresh now cfg.max_staleness_secs = true →
      d.confidence_pct ≤ cfg.max_oracle_confidence_pct →
      cfg.max_price_deviation_pct <
        |((opp.buy_price + opp.sell_price) / 2 - d.normalized_price) / d.normalized_price| *
          100 →
      validate_opportunity cfg (some d) now opp =
        ValidationResult.with_metrics false VReason.priceDeviation d.normalized_price
          ((opp.buy_price + opp.sell_price) / 2)
          (|((opp.buy_price + opp.sell_price) / 2 - d.normalized_price) /
              d.normalized_price| * 100)
          d.confidence_pct) ∧
    (∀ (cfg : OracleValidationConfig) (d : PythPriceData) (now : Nat)
        (opp : EnhancedArbitrageOpportunity),
      d.is_fresh now cfg.max_staleness_secs = true →
      d.confidence_pct ≤ cfg.max_oracle_confidence_pct →
      |((opp.buy_price + opp.sell_price) / 2 - d.normalized_price) / d.normalized_price| *
          100 ≤ cfg.max_price_deviation_pct →
      cfg.require_both_pools = true →
      cfg.max_price_deviation_pct <
        |(opp.buy_price - d.normalized_price) / d.normalized_price| * 100 →
      validate_opportunity cfg (some d) now opp =
        ValidationResult.with_metrics false VReason.buyDeviation d.normalized_price
          opp.buy_price (|(opp.buy_price - d.normalized_price) / d.normalized_price| * 100)
          d.confidence_pct) ∧
    (∀ (cfg : OracleValidationConfig) (d : PythPriceData) (now : Nat)
        (opp : EnhancedArbitrageOpportunity),
      d.is_fresh now cfg.max_staleness_secs = true →
      d.confidence_pct ≤ cfg.max_oracle_confidence_pct →
      |((opp.buy_price + opp.sell_price) / 2 - d.normalized_price) / d.normalized_price| *
          100 ≤ cfg.max_price_deviation_pct →
      cfg.require_both_pools = true →
      |(opp.buy_price - d.normalized_price) / d.normalized_price| * 100 ≤
        cfg.max_price_deviation_pct →
      cfg.max_price_deviation_pct <
        |(opp.sell_price - d.normalized_price) / d.normalized_price| * 100 →
      validate_opportunity cfg (some d) now opp =
        ValidationResult.with_metrics false VReason.sellDeviation d.normalized_price
          opp.sell_price (|(opp.sell_price - d.normalized_price) / d.normalized_price| * 100)
          d.confidence_pct) ∧
    (∀ (cfg : OracleValidationConfig) (d : PythPriceData) (now : Nat)
        (opp : EnhancedArbitrageOpportunity),
      d.is_fresh now cfg.max_staleness_secs = true →
      d.confidence_pct ≤ cfg.max_oracle_confidence_pct →
      |((opp.buy_price + opp.sell_price) / 2 - d.normalized_price) / d.normalized_price| *
          100 ≤ cfg.max_price_deviation_pct →
      (cfg.require_both_pools = false ∨
        (|(opp.buy_price - d.normalized_price) / d.normalized_price| * 100 ≤
            cfg.max_price_deviation_pct ∧
          |(opp.sell_price - d.normalized_price) / d.normalized_price| * 100 ≤
            cfg.max_price_deviation_pct)) →
      validate_opportunity cfg (some d) now opp =
        ValidationResult.with_metrics true VReason.passed d.normalized_price
          ((opp.buy_price + opp.sell_price) / 2)
          (|((opp.buy_price + opp.sell_price) / 2 - d.normalized_price) /
              d.normalized_price| * 100)
          d.confidence_pct) ∧
    validate_opportunity OracleValidationConfig.balanced (some oracleEx) 100 oracleOpp =
      ValidationResult.with_metrics false VReason.priceDeviation 1 (6/5) 20 (1/5) := by
  refine ⟨?_, ?_, ?_, ?_, ?_, ?_, ?_, ?_⟩
  · intro cfg now opp
    rfl
  · intro cfg d now opp h
    simp [validate_opportunity, h]
  · intro cfg d now opp hf hc
    simp only [validate_opportunity, hf]
    rw [if_neg (by simp), if_pos hc]
  · intro cfg d now opp hf hc hd
    simp only [validate_opportunity, hf]
    rw [if_neg (by simp), if_neg (not_lt.mpr hc), if_pos hd]
  · intro cfg d now opp hf hc hd hreq hbuy
    simp only [validate_opportunity, hf]
    rw [if_neg (by simp), if_neg (not_lt.mpr hc), if_neg (not_lt.mpr hd),
      if_pos (by exact ⟨by simp [hreq], hbuy⟩)]
  · intro cfg d now opp hf hc hd hreq hbuy hsell
    simp only [validate_opportunity, hf]
    rw [if_neg (by simp), if_neg (not_lt.mpr hc), if_neg (not_lt.mpr hd),
      if_neg (by intro hh; exact absurd hh.2 (not_lt.mpr hbuy)),
      if_pos (by exact ⟨by simp [hreq], hsell⟩)]
  · intro cfg d now opp hf hc hd hrest
    simp only [validate_opportunity, hf]
    rw [if_neg (by simp), if_neg (not_lt.mpr hc), if_neg (not_lt.mpr hd)]
    rcases hrest with hreq | ⟨hbuy, hsell⟩
    · rw [if_neg (by intro hh; rw [hreq] at hh; exact absurd hh.1 (by simp)),
        if_neg (by intro hh; rw [hreq] at hh; exact absurd hh.1 (by simp))]
    · rw [if_neg (by intro hh; exact absurd hh.2 (not_lt.mpr hbuy)),
        if_neg (by intro hh; exact absurd hh.2 (not_lt.mpr hsell))]
  · have hfresh : oracleEx.is_fresh 100 OracleValidationConfig.balanced.max_staleness_secs
        = true := by
      norm_num [PythPriceData.is_fresh, oracleEx, OracleValidationConfig.balanced,
        OracleValidationConfig.default]
    simp only [validate_opportunity, hfresh]
    rw [if_neg (by simp)]
    norm_num [PythPriceData.confidence_pct, PythPriceData.normalized_price, oracleEx,
      oracleOpp, OracleValidationConfig.balanced, OracleValidationConfig.default,
      abs_of_nonneg]

/-- C6 witness: the gate theorem applied at a missing oracle and at a
905-second-old oracle record, under the balanced preset. -/
theorem oracle_validator_gates_witness :
    validate_opportunity OracleValidationConfig.balanced none 0 oracleOpp =
      ValidationResult.invalid VReason.noOracle ∧
    validate_opportunity OracleValidationConfig.balanced (some oracleEx) 1000 oracleOpp =
      ValidationResult.invalid VReason.staleOracle := by
  constructor
  · exact oracle_validator_gates.1 OracleValidationConfig.balanced 0 oracleOpp
  · exact oracle_validator_gates.2.1 OracleValidationConfig.balanced oracleEx 1000 oracleOpp
      (by norm_num [PythPriceData.is_fresh, oracleEx, OracleValidationConfig.balanced,
        OracleValidationConfig.default])

/-! ## Claim C2 -/

theorem evopp_eval :
    evDetector.evaluate_trade_size evTokenPair evBuyPool evSellPool 1000000000 true 0 =
      some evOpp := by
  norm_num [EnhancedArbitrageDetector.evaluate_trade_size, PoolState.calculate_price_impact,
    PoolState.calculate_cpmm_impact, PoolState.execution_probability, impactScore,
    liquidityScore, recencyScore, fCastNat, evDetector, evBuyPool, evSellPool,
    EnhancedArbitrageDetector.new, evOpp, abs_of_nonneg, wsub64]
  exact ⟨rfl, rfl, rfl, rfl⟩

/-- C2 counterexample: on a concrete evaluated candidate, `ev_score` is
not `min(EV/10000, 100)`: the code's score is
`(EV/10000)·10 + net_profit_pct·prob_combined`, uncapped, so this
candidate scores ≈ 2.84·10^6 where the pure-EV normalization would
give 100. -/
theorem ev_score_not_pure_cex :
    (evDetector.evaluate_trade_size evTokenPair evBuyPool evSellPool 1000000000 true 0).map
        (fun o => o.ev_score) ≠
      (evDetector.evaluate_trade_size evTokenPair evBuyPool evSellPool 1000000000 true
        0).map (fun o => ev_score_pure_spec ((o.net_profit : ℚ) *
          o.combined_execution_prob)) := by
  rw [evopp_eval]
  simp only [Option.map_some']
  intro h
  rw [Option.some.injEq] at h
  norm_num [evOpp, ev_score_pure_spec, min_def] at h

/-- C2 amended: for every candidate `evaluate_trade_size` emits,
`expected_value` is `net_profit · prob_combined`, but `ev_score` is the
weighted, uncapped form
`(EV/10000)·10 + net_profit_pct · prob_combined` — not the pure-EV
`min(EV/10000, 100)` normalization (so it is not a function of
`net_profit` and `prob_combined` through their product alone, and is not
capped at 100). -/
theorem ev_score_weighted_form :
    ∀ (d : EnhancedArbitrageDetector) (tp : TokenPair) (bp sp : PoolState)
      (ts : Nat) (dir : Bool) (now : Nat) (opp : EnhancedArbitrageOpportunity),
      d.evaluate_trade_size tp bp sp ts dir now = some opp →
        opp.expected_value = (opp.net_profit : ℚ) * opp.combined_execution_prob ∧
        opp.ev_score = opp.expected_value / 10000 * 10 +
          opp.net_profit_pct * opp.combined_execution_prob := by
  intro d tp bp sp ts dir now opp h
  simp only [EnhancedArbitrageDetector.evaluate_trade_size] at h
  split_ifs at h <;>
    first
      | exact Option.noConfusion h
      | (rw [Option.some.injEq] at h; subst h; exact ⟨rfl, rfl⟩)

/-- C2 witness: the weighted-form theorem at the concrete evaluated
candidate `evOpp`. -/
theorem ev_score_weighted_form_witness :
    evDetector.evaluate_trade_size evTokenPair evBuyPool evSellPool 1000000000 true 0 =
      some evOpp ∧
    evOpp.expected_value = (evOpp.net_profit : ℚ) * evOpp.combined_execution_prob ∧
    evOpp.ev_score = evOpp.expected_value / 10000 * 10 +
      evOpp.net_profit_pct * evOpp.combined_execution_prob := by
  obtain ⟨h1, h2⟩ := ev_score_weighted_form evDetector evTokenPair evBuyPool evSellPool
    1000000000 true 0 evOpp evopp_eval
  exact ⟨evopp_eval, h1, h2⟩
